import Mathlib

/-!
# Tile renderer (map/tile_renderer.cpp): scheduling, cancellation and caching

A shallow embedding of `TileRenderer` from `map/tile_renderer.cpp`.

* The renderer's members become the fields of the structure `TileRenderer`.
* Every call the renderer makes to an external collaborator (resource pool,
  drawer, graphics queue, tile cache) is appended to the field `log`, so that
  "is called", "is not called" and "is called exactly once" are statements
  about this list.
* What the collaborators answer is an input: the render-target pool's answers
  are a `RenderTargetPool`, the answers of `env.isCancelled()` are given by the
  `Environment`, `scales::GetUpperScale()` is the parameter `upperScale`.
* Other threads write the members `DrawTile` shares with them while it runs: the
  submitting thread calls the setters, other workers commit their tiles with
  `AddTile`. These calls are part of the outcome of the render callback
  (`RenderOutcome.calls`) and are applied to the renderer at that point, so the
  cache `AddTile` finds may differ from the one the admission check saw.
* The tile cache (`TileCache`) is declared in a file that is not part of the
  sources; its operations are modelled from the specification.
-/

namespace Omim

/-- A render target texture handle (`shared_ptr<yg::gl::BaseTexture>`). -/
abbrev Texture := Nat

/-- The tile key, `Tiler::RectInfo` (declared outside the sources): the tile scale
and the tile-grid coordinates, the members `DrawTile` names. -/
structure RectInfo where
  m_tileScale : Int
  m_x : Int
  m_y : Int
deriving DecidableEq, Repr

/-- The tile artifact, `Tile`: the render target, the key it was rendered for and
the empty-drawing flag (info layer and screen are not inspected by the renderer). -/
structure Tile where
  m_renderTarget : Texture
  m_rectInfo : RectInfo
  m_isEmptyDrawing : Bool
deriving DecidableEq, Repr

/-- The cache entry, `TileCache::Entry(tile, resourceManager)`. -/
structure Entry where
  m_tile : Tile
deriving DecidableEq, Repr

/-- Modelled from the spec: the class `TileCache` (tile_cache.hpp/.cpp, not part of
the sources). A capacity and the entries in access order, most recently touched
first ("Entries form an access-ordered structure"). -/
structure TileCache where
  capacity : Nat
  entries : List (RectInfo × Entry)
deriving DecidableEq, Repr

namespace TileCache

/-- The entry stored for a key, if any (first match in access order). -/
def lookup (k : RectInfo) : List (RectInfo × Entry) → Option Entry
  | [] => none
  | (k', e) :: rest => if k' = k then some e else lookup k rest

/-- The entries without the (first) entry stored for a key. -/
def eraseKey (k : RectInfo) : List (RectInfo × Entry) → List (RectInfo × Entry)
  | [] => []
  | (k', e) :: rest => if k' = k then rest else (k', e) :: eraseKey k rest

/-- The entry the cache holds for a key, if any. -/
def find (c : TileCache) (k : RectInfo) : Option Entry :=
  lookup k c.entries

/-- The number of occupied slots. -/
def occupied (c : TileCache) : Nat :=
  c.entries.length

/-- Modelled from the spec: `TileCache::hasTile`, "hasTile(key) -> bool". -/
def hasTile (c : TileCache) (k : RectInfo) : Bool :=
  (lookup k c.entries).isSome

/-- Modelled from the spec: `TileCache::touchTile`, "touch(key) (promote recency)":
the entry of the key becomes the most recently touched one. -/
def touchTile (c : TileCache) (k : RectInfo) : TileCache :=
  match lookup k c.entries with
  | none => c
  | some e => { c with entries := (k, e) :: eraseKey k c.entries }

/-- Modelled from the spec: `TileCache::canFit`, "reports remaining free slots under
the current capacity". -/
def canFit (c : TileCache) : Nat :=
  c.capacity - c.entries.length

/-- Modelled from the spec: `TileCache::cacheSize`, the current capacity in
elements (the log line of `AddTile`: "resizing tileCache to cacheSize() + 1
elements"). -/
def cacheSize (c : TileCache) : Nat :=
  c.capacity

/-- Modelled from the spec: `TileCache::resize`, "resize(newCapacity) grows
capacity". -/
def resize (c : TileCache) (newCapacity : Nat) : TileCache :=
  { c with capacity := newCapacity }

/-- Modelled from the spec: `TileCache::addTile`, "inserts; if capacity is exceeded,
evicts least-recently-touched entries first, returning each evicted entry's GPU
texture to the Resource Pool before dropping it". The result is the new cache and
the textures returned to the pool, in eviction order. -/
def addTile (c : TileCache) (k : RectInfo) (e : Entry) : TileCache × List Texture :=
  let all := (k, e) :: c.entries
  ({ c with entries := all.take c.capacity },
   ((all.drop c.capacity).reverse.map fun p => p.2.m_tile.m_renderTarget))

end TileCache

/-- The calls the renderer makes to its collaborators, in the order of the calls. -/
inductive Event where
  /-- Call `renderTargetTextures()->Reserve()` returned this texture. -/
  | reserve (t : Texture)
  /-- Call `StartTile(rectInfo)`. -/
  | startTile (k : RectInfo)
  /-- Call `drawer->screen()->setRenderTarget(tileTarget)`. -/
  | setRenderTarget (t : Texture)
  /-- Call `m_renderFn(..., scale, isWithinCap)`: the last two arguments. -/
  | render (scale : Int) (isWithinCap : Bool)
  /-- Call `tileInfoLayer->clip(renderRect)`. -/
  | clip
  /-- Call `glQueue->processFn(...)` in `ReadPixels`. -/
  | processFn
  /-- Call `drawer->screen()->readPixels(...)` in `ReadPixels`. -/
  | readPixels
  /-- Call `drawer->screen()->unbindRenderTarget()`. -/
  | unbindRenderTarget
  /-- Call `glQueue->completeCommands()`. -/
  | completeCommands
  /-- Call `glQueue->cancelCommands()`. -/
  | cancelCommands
  /-- Call `FinishTile(rectInfo)`. -/
  | finishTile (k : RectInfo)
  /-- Call `renderTargetTextures()->Free(texture)`. -/
  | free (t : Texture)
  /-- Call `m_tileCache.touchTile(rectInfo)`. -/
  | touchTile (k : RectInfo)
  /-- Call `m_tileCache.resize(n)`. -/
  | resize (n : Nat)
  /-- Call `m_tileCache.addTile(rectInfo, Entry(tile))`, with the tile's render target. -/
  | addTile (k : RectInfo) (t : Texture)
  /-- Call `m_queue.Cancel()`, with the value `m_isExiting` has when the call is made. -/
  | queueCancel (isExiting : Bool)
deriving DecidableEq, Repr

/-- The per-thread data the renderer reads in `DrawTile`: whether
`m_drawerParams.m_renderQueue` is a non-null graphics queue. -/
structure ThreadData where
  m_renderQueue : Bool
deriving DecidableEq, Repr

/-- A queued command chain: `bind(&TileRenderer::DrawTile, this, _1, rectInfo, sequenceID)`. -/
structure Command where
  rectInfo : RectInfo
  sequenceID : Int
deriving DecidableEq, Repr

/-- The members of `TileRenderer` and the log of its calls. -/
structure TileRenderer where
  m_sequenceID : Int
  m_isExiting : Bool
  m_isPaused : Bool
  /-- Member `std::set<Tiler::RectInfo> m_tilesInProgress`, as the list of its members. -/
  m_tilesInProgress : List RectInfo
  m_tileCache : TileCache
  m_threadData : List ThreadData
  /-- The chains added to `m_queue`, oldest first. -/
  m_queue : List Command
  log : List Event
deriving DecidableEq, Repr

/-- Source type `core::CommandsQueue::Environment`: the thread number and the answers of
`env.isCancelled()`. The flag is set by other threads, so each of the four reads
in `DrawTile` has an answer of its own: read 0 is the one before
`tileInfoLayer->clip`, read 1 the one in `ReadPixels`, read 2 the one before
`completeCommands`/`cancelCommands`, read 3 the one that chooses between `Free`
and `AddTile`. -/
structure Environment where
  threadNum : Nat
  isCancelled : Nat → Bool

/-- The answers of `m_resourceManager->renderTargetTextures()` during one `DrawTile`:
the texture `Reserve()` returns and what `IsCancelled()` says after it. -/
structure RenderTargetPool where
  Reserve : Texture
  IsCancelled : Bool
deriving DecidableEq, Repr

/-- A call on the renderer that takes effect while a `DrawTile` is running: a call
of a public setter by the submitting thread, or the commit (`AddTile`) of a tile
that another worker has finished rendering. -/
inductive ConcurrentCall where
  | SetSequenceID (sequenceID : Int)
  | SetIsPaused (flag : Bool)
  | AddTile (rectInfo : RectInfo) (tile : Tile)
deriving DecidableEq, Repr

/-- What happens during one call of the render callback, as far as the renderer can
see: the calls of other threads that take effect in the meantime, in their order,
and `paintEvent->isEmptyDrawing()` afterwards. `DrawTile` reads the members these
calls write (`m_sequenceID`, `m_isPaused`, the cache) only before `Reserve` and in
`AddTile`, so a call taking effect anywhere between the admission checks and
`AddTile` is observed as one taking effect during the callback. -/
structure RenderOutcome where
  calls : List ConcurrentCall
  isEmptyDrawing : Bool
deriving DecidableEq, Repr

/-- The render callback `m_renderFn`, as a function of the detail level and the
flag it is called with. -/
abbrev RenderFn := Int → Bool → RenderOutcome

namespace TileRenderer

/-- Append a call to the log. -/
def emit (s : TileRenderer) (e : Event) : TileRenderer :=
  { s with log := s.log ++ [e] }

/-- Source function `TileRenderer::SetSequenceID`. -/
def SetSequenceID (s : TileRenderer) (sequenceID : Int) : TileRenderer :=
  { s with m_sequenceID := sequenceID }

/-- Source function `TileRenderer::SetIsPaused`. -/
def SetIsPaused (s : TileRenderer) (flag : Bool) : TileRenderer :=
  { s with m_isPaused := flag }

/-- Source function `TileRenderer::HasTile`: lock, `hasTile`, unlock. -/
def HasTile (s : TileRenderer) (rectInfo : RectInfo) : Bool :=
  s.m_tileCache.hasTile rectInfo

/-- Source function `TileRenderer::StartTile`: `m_tilesInProgress.insert(rectInfo)`. -/
def StartTile (s : TileRenderer) (rectInfo : RectInfo) : TileRenderer :=
  { s with
    m_tilesInProgress :=
      if rectInfo ∈ s.m_tilesInProgress then s.m_tilesInProgress
      else rectInfo :: s.m_tilesInProgress
    log := s.log ++ [Event.startTile rectInfo] }

/-- Source function `TileRenderer::FinishTile`: `m_tilesInProgress.erase(rectInfo)`. -/
def FinishTile (s : TileRenderer) (rectInfo : RectInfo) : TileRenderer :=
  { s with
    m_tilesInProgress := s.m_tilesInProgress.filter fun k => decide (k ≠ rectInfo)
    log := s.log ++ [Event.finishTile rectInfo] }

/-- Source function `TileRenderer::AddTile`. -/
def AddTile (s : TileRenderer) (rectInfo : RectInfo) (tile : Tile) : TileRenderer :=
  if s.m_tileCache.hasTile rectInfo then
    let s := s.emit (.free tile.m_renderTarget)
    { s with
      m_tileCache := s.m_tileCache.touchTile rectInfo
      log := s.log ++ [Event.touchTile rectInfo] }
  else
    let s :=
      if s.m_tileCache.canFit = 0 then
        { s with
          m_tileCache := s.m_tileCache.resize (s.m_tileCache.cacheSize + 1)
          log := s.log ++ [Event.resize (s.m_tileCache.cacheSize + 1)] }
      else s
    let r := s.m_tileCache.addTile rectInfo ⟨tile⟩
    { s with
      m_tileCache := r.1
      log := s.log ++ [Event.addTile rectInfo tile.m_renderTarget] ++ r.2.map Event.free }

/-- One concurrent call applied to the renderer; the commit of another worker is
that worker's call of `AddTile`. -/
def applyCall (s : TileRenderer) : ConcurrentCall → TileRenderer
  | .SetSequenceID n => s.SetSequenceID n
  | .SetIsPaused b => s.SetIsPaused b
  | .AddTile k tile => s.AddTile k tile

/-- The concurrent calls of a render outcome applied in order. -/
def applyCalls (s : TileRenderer) (calls : List ConcurrentCall) : TileRenderer :=
  calls.foldl applyCall s

/-- Source function `TileRenderer::ReadPixels`: with a graphics queue the call is handed to
`processFn`, which runs it with a null queue; without one the pixels are read
unless the environment is cancelled. -/
def ReadPixels (s : TileRenderer) (glQueue : Bool) (env : Environment) : TileRenderer :=
  let s := if glQueue then s.emit .processFn else s
  if !env.isCancelled 1 then s.emit .readPixels else s

/-- Source function `TileRenderer::DrawTile`. The three early returns, `Reserve`, the
pool check, `StartTile`, the render callback with its two computed arguments, the
clip, `ReadPixels`, the queue calls, `FinishTile` and the final choice between
`Free` and `AddTile` follow the source line by line; drawing calls that no
property depends on (`beginFrame`, `clear`, `endFrame`, `finish`) are left out.
The calls of other threads that take effect during the run are applied where the
render callback returns. `m_threadData[env.threadNum()]` is in range by construction (the constructor
resizes `m_threadData` to the number of executors); out of range the model reads
"no graphics queue". -/
def DrawTile (upperScale : Int) (pool : RenderTargetPool) (renderFn : RenderFn)
    (s : TileRenderer) (env : Environment) (rectInfo : RectInfo) (sequenceID : Int) :
    TileRenderer :=
  if s.m_isPaused then s
  else if sequenceID < s.m_sequenceID then s
  else if s.HasTile rectInfo then s
  else
    let glQueue := (s.m_threadData.getD env.threadNum ⟨false⟩).m_renderQueue
    let tileTarget := pool.Reserve
    let s := s.emit (.reserve tileTarget)
    if pool.IsCancelled then s
    else
      let s := s.StartTile rectInfo
      let s := s.emit (.setRenderTarget tileTarget)
      let scale := min upperScale rectInfo.m_tileScale
      let isWithinCap := decide (rectInfo.m_tileScale ≤ upperScale)
      let s := s.emit (.render scale isWithinCap)
      let outcome := renderFn scale isWithinCap
      let s := s.applyCalls outcome.calls
      let s := if !env.isCancelled 0 then s.emit .clip else s
      let s := s.ReadPixels glQueue env
      let s := s.emit .unbindRenderTarget
      let s :=
        if !env.isCancelled 2 then
          (if glQueue then s.emit .completeCommands else s)
        else
          (if !s.m_isExiting then (if glQueue then s.emit .cancelCommands else s) else s)
      let s := s.FinishTile rectInfo
      if env.isCancelled 3 then
        (if !s.m_isExiting then s.emit (.free tileTarget) else s)
      else
        s.AddTile rectInfo ⟨tileTarget, rectInfo, outcome.isEmptyDrawing⟩

/-- Source function `TileRenderer::AddCommand`: `SetSequenceID`, then the chain with the `DrawTile`
command is added to the queue. -/
def AddCommand (s : TileRenderer) (rectInfo : RectInfo) (sequenceID : Int) : TileRenderer :=
  let s := s.SetSequenceID sequenceID
  { s with m_queue := s.m_queue ++ [⟨rectInfo, sequenceID⟩] }

/-- Source function `TileRenderer::~TileRenderer`: `m_isExiting = true`, then `m_queue.Cancel()`. -/
def Destroy (s : TileRenderer) : TileRenderer :=
  let s := { s with m_isExiting := true }
  s.emit (.queueCancel s.m_isExiting)

end TileRenderer

/-! ## Observations on runs

Definitions used to state the properties: the calls made during a run, and the
intermediate points of `AddTile` and `DrawTile` the proofs go through. -/

/-- The calls a renderer has made since an earlier state of it. -/
def newCalls (before after : TileRenderer) : List Event :=
  after.log.drop before.log.length

/-- The calls `DrawTile` makes between the render callback and `FinishTile`: they
depend on the thread's graphics queue, on the first three reads of
`env.isCancelled()` and on `m_isExiting`. -/
def midCalls (glQueue : Bool) (env : Environment) (isExiting : Bool) : List Event :=
  (if env.isCancelled 0 then [] else [Event.clip])
  ++ (if glQueue then [Event.processFn] else [])
  ++ (if env.isCancelled 1 then [] else [Event.readPixels])
  ++ [Event.unbindRenderTarget]
  ++ (if env.isCancelled 2 then
        (if isExiting then [] else if glQueue then [Event.cancelCommands] else [])
      else if glQueue then [Event.completeCommands] else [])

/-- The cache at the moment `AddTile` calls `addTile` for a key that is not cached:
resized by one slot when `canFit()` was 0. -/
def roomFor (c : TileCache) : TileCache :=
  if c.canFit = 0 then c.resize (c.cacheSize + 1) else c

/-- The calls of `AddTile` for a key that is not cached. -/
def insertCalls (c : TileCache) (k : RectInfo) (tile : Tile) : List Event :=
  (if c.canFit = 0 then [Event.resize (c.cacheSize + 1)] else [])
  ++ [Event.addTile k tile.m_renderTarget]
  ++ ((roomFor c).addTile k ⟨tile⟩).2.map Event.free

/-- The cache after `AddTile`. -/
def commitCache (c : TileCache) (k : RectInfo) (tile : Tile) : TileCache :=
  if c.hasTile k then c.touchTile k else ((roomFor c).addTile k ⟨tile⟩).1

/-- The calls of `AddTile`. -/
def commitCalls (c : TileCache) (k : RectInfo) (tile : Tile) : List Event :=
  if c.hasTile k then [Event.free tile.m_renderTarget, Event.touchTile k]
  else insertCalls c k tile

/-- The sequence id after a list of concurrent calls. -/
def seqAfter (n : Int) : List ConcurrentCall → Int
  | [] => n
  | .SetSequenceID m :: cs => seqAfter m cs
  | .SetIsPaused _ :: cs => seqAfter n cs
  | .AddTile _ _ :: cs => seqAfter n cs

/-- The pause flag after a list of concurrent calls. -/
def pausedAfter (b : Bool) : List ConcurrentCall → Bool
  | [] => b
  | .SetSequenceID _ :: cs => pausedAfter b cs
  | .SetIsPaused c :: cs => pausedAfter c cs
  | .AddTile _ _ :: cs => pausedAfter b cs

/-- The cache after a list of concurrent calls: the cache `DrawTile` finds when it
reaches `AddTile`. -/
def cacheAfter (c : TileCache) : List ConcurrentCall → TileCache
  | [] => c
  | .SetSequenceID _ :: cs => cacheAfter c cs
  | .SetIsPaused _ :: cs => cacheAfter c cs
  | .AddTile k tile :: cs => cacheAfter (commitCache c k tile) cs

/-- The calls the other workers make to the pool and the cache in a list of
concurrent calls. -/
def otherCalls (c : TileCache) : List ConcurrentCall → List Event
  | [] => []
  | .SetSequenceID _ :: cs => otherCalls c cs
  | .SetIsPaused _ :: cs => otherCalls c cs
  | .AddTile k tile :: cs => commitCalls c k tile ++ otherCalls (commitCache c k tile) cs

/-- The render targets of the tiles other workers commit in a list of concurrent
calls. -/
def otherTargets : List ConcurrentCall → List Texture
  | [] => []
  | .SetSequenceID _ :: cs => otherTargets cs
  | .SetIsPaused _ :: cs => otherTargets cs
  | .AddTile _ tile :: cs => tile.m_renderTarget :: otherTargets cs

/-- No entry of the cache holds the texture. -/
def TileCache.Without (c : TileCache) (t : Texture) : Prop :=
  ∀ p ∈ c.entries, p.2.m_tile.m_renderTarget ≠ t

namespace TileRenderer

/-- The state `DrawTile` has reached when `FinishTile` has returned, for a request
that passed the admission checks and whose pool is not cancelled. -/
def beforeCommit (upperScale : Int) (pool : RenderTargetPool) (renderFn : RenderFn)
    (s : TileRenderer) (env : Environment) (rectInfo : RectInfo) : TileRenderer :=
  let glQueue := (s.m_threadData.getD env.threadNum ⟨false⟩).m_renderQueue
  let scale := min upperScale rectInfo.m_tileScale
  let isWithinCap := decide (rectInfo.m_tileScale ≤ upperScale)
  let calls := (renderFn scale isWithinCap).calls
  { s with
    m_sequenceID := seqAfter s.m_sequenceID calls
    m_isPaused := pausedAfter s.m_isPaused calls
    m_tileCache := cacheAfter s.m_tileCache calls
    m_tilesInProgress := s.m_tilesInProgress.filter fun k => decide (k ≠ rectInfo)
    log := s.log ++ [Event.reserve pool.Reserve, Event.startTile rectInfo,
        Event.setRenderTarget pool.Reserve, Event.render scale isWithinCap]
      ++ otherCalls s.m_tileCache calls
      ++ midCalls glQueue env s.m_isExiting ++ [Event.finishTile rectInfo] }

/-- A sequence of `AddTile` calls. -/
def AddTiles (s : TileRenderer) (tiles : List (RectInfo × Tile)) : TileRenderer :=
  tiles.foldl (fun r p => r.AddTile p.1 p.2) s

end TileRenderer

/-! ## Example data -/

/-- Tile key A. -/
def keyA : RectInfo := ⟨3, 0, 0⟩

/-- Tile key B. -/
def keyB : RectInfo := ⟨3, 1, 0⟩

/-- An environment that is never cancelled. -/
def envRunning : Environment := ⟨0, fun _ => false⟩

/-- An environment that is cancelled at every read. -/
def envCancelled : Environment := ⟨0, fun _ => true⟩

/-- A pool that hands out texture 7 and is not cancelled. -/
def pool7 : RenderTargetPool := ⟨7, false⟩

/-- A render callback during which no call of another thread takes effect. -/
def renderQuiet : RenderFn := fun _ _ => ⟨[], false⟩

/-- A render callback during which `SetSequenceID(2)` takes effect. -/
def renderThenSeq2 : RenderFn := fun _ _ => ⟨[.SetSequenceID 2], false⟩

/-- A render callback during which another worker commits its own tile for A,
rendered into texture 8. -/
def renderWhileACommitted : RenderFn := fun _ _ => ⟨[.AddTile keyA ⟨8, keyA, false⟩], false⟩

/-- A fresh renderer: sequence id 0, one thread without graphics queue, an empty
cache of capacity 2. -/
def fresh : TileRenderer :=
  { m_sequenceID := 0, m_isExiting := false, m_isPaused := false, m_tilesInProgress := [],
    m_tileCache := ⟨2, []⟩, m_threadData := [⟨false⟩], m_queue := [], log := [] }

/-- The fresh renderer with A in the In-Progress Set. -/
def busyA : TileRenderer := { fresh with m_tilesInProgress := [keyA] }

/-- The fresh renderer with `m_isExiting` set. -/
def exitingFresh : TileRenderer := { fresh with m_isExiting := true }

/-- A cache of capacity 2 holding B (most recently touched) and A. -/
def cacheBA : TileCache :=
  ⟨2, [(keyB, ⟨⟨1, keyB, false⟩⟩), (keyA, ⟨⟨2, keyA, false⟩⟩)]⟩

/-- The fresh renderer with the cache holding B and A. -/
def cachedBA : TileRenderer := { fresh with m_tileCache := cacheBA }

/-- The renderer with the cache holding B and A and `m_isExiting` set. -/
def exitingCachedBA : TileRenderer := { cachedBA with m_isExiting := true }

/-- The fresh renderer with a cache of capacity 0. -/
def fullEmpty : TileRenderer := { fresh with m_tileCache := ⟨0, []⟩ }

/-! ## Lemmas on the cache -/

namespace TileCache

theorem lookup_cons_self (k : RectInfo) (e : Entry) (l : List (RectInfo × Entry)) :
    lookup k ((k, e) :: l) = some e := by
  simp [lookup]

theorem length_eraseKey {k : RectInfo} {e : Entry} :
    ∀ {l : List (RectInfo × Entry)}, lookup k l = some e → (eraseKey k l).length + 1 = l.length
  | [], h => by simp [lookup] at h
  | (k', e') :: rest, h => by
    by_cases hk : k' = k
    · simp [eraseKey, hk]
    · simp only [lookup, hk, if_false] at h
      simp [eraseKey, hk, length_eraseKey h]

theorem touchTile_find (c : TileCache) (k : RectInfo) :
    (c.touchTile k).find k = c.find k := by
  unfold touchTile find
  cases h : lookup k c.entries with
  | none => simp [h]
  | some e => simp [lookup_cons_self, h]

theorem touchTile_occupied (c : TileCache) (k : RectInfo) :
    (c.touchTile k).occupied = c.occupied := by
  unfold touchTile occupied
  cases h : lookup k c.entries with
  | none => simp
  | some e => simpa using length_eraseKey h

theorem touchTile_capacity (c : TileCache) (k : RectInfo) :
    (c.touchTile k).capacity = c.capacity := by
  unfold touchTile
  cases lookup k c.entries <;> rfl

theorem addTile_occupied_le (c : TileCache) (k : RectInfo) (e : Entry) :
    (c.addTile k e).1.occupied ≤ (c.addTile k e).1.capacity := by
  simp [addTile, occupied, List.length_take]

theorem addTile_capacity (c : TileCache) (k : RectInfo) (e : Entry) :
    (c.addTile k e).1.capacity = c.capacity := rfl

theorem addTile_hasTile (c : TileCache) (k : RectInfo) (e : Entry) (h : 1 ≤ c.capacity) :
    (c.addTile k e).1.hasTile k = true := by
  obtain ⟨n, hn⟩ : ∃ n, c.capacity = n + 1 := ⟨c.capacity - 1, by omega⟩
  simp [addTile, hasTile, hn, List.take_succ_cons, lookup]

theorem addTile_evicted_mem (c : TileCache) (k : RectInfo) (e : Entry) (h : 1 ≤ c.capacity)
    (t : Texture) (ht : t ∈ (c.addTile k e).2) :
    ∃ p ∈ c.entries, p.2.m_tile.m_renderTarget = t := by
  obtain ⟨n, hn⟩ : ∃ n, c.capacity = n + 1 := ⟨c.capacity - 1, by omega⟩
  simp only [addTile, hn, List.drop_succ_cons, List.mem_map, List.mem_reverse] at ht
  obtain ⟨p, hp, rfl⟩ := ht
  exact ⟨p, List.mem_of_mem_drop hp, rfl⟩

theorem addTile_of_room (c : TileCache) (k : RectInfo) (e : Entry)
    (h : c.occupied + 1 ≤ c.capacity) :
    c.addTile k e = ({ c with entries := (k, e) :: c.entries }, []) := by
  have h1 : ((k, e) :: c.entries).length ≤ c.capacity := by simpa [occupied] using h
  simp [addTile, List.take_of_length_le h1, List.drop_eq_nil_of_le h1]

end TileCache

theorem roomFor_entries (c : TileCache) : (roomFor c).entries = c.entries := by
  unfold roomFor; split_ifs <;> rfl

theorem roomFor_capacity_pos (c : TileCache) : 1 ≤ (roomFor c).capacity := by
  unfold roomFor TileCache.canFit TileCache.resize TileCache.cacheSize
  split_ifs with h
  · simp
  · omega

theorem roomFor_room (c : TileCache) (h : c.occupied ≤ c.capacity) :
    (roomFor c).occupied + 1 ≤ (roomFor c).capacity := by
  unfold roomFor TileCache.canFit TileCache.resize TileCache.cacheSize TileCache.occupied at *
  split_ifs with h0
  · simp; omega
  · omega

/-! ## Lemmas on the renderer -/

theorem mem_midCalls {q : Bool} {env : Environment} {x : Bool} {e : Event}
    (h : e ∈ midCalls q env x) :
    e = .clip ∨ e = .processFn ∨ e = .readPixels ∨ e = .unbindRenderTarget
      ∨ e = .cancelCommands ∨ e = .completeCommands := by
  unfold midCalls at h
  simp only [List.mem_append, List.mem_singleton] at h
  rcases h with (((h | h) | h) | h) | h
  · split_ifs at h <;> simp_all
  · split_ifs at h <;> simp_all
  · split_ifs at h <;> simp_all
  · simp_all
  · split_ifs at h <;> simp_all

/-! ## Lemmas on `AddTile` -/

theorem mem_insertCalls {c : TileCache} {k : RectInfo} {tile : Tile} {e : Event}
    (h : e ∈ insertCalls c k tile) :
    (∃ n, e = .resize n) ∨ e = .addTile k tile.m_renderTarget ∨ ∃ t, e = .free t := by
  unfold insertCalls at h
  simp only [List.mem_append, List.mem_singleton, List.mem_map] at h
  rcases h with (h | h) | ⟨t, -, h⟩
  · split_ifs at h
    · exact Or.inl ⟨_, by simpa using h⟩
    · simp at h
  · exact Or.inr (Or.inl h)
  · exact Or.inr (Or.inr ⟨t, h.symm⟩)

theorem mem_commitCalls {c : TileCache} {k : RectInfo} {tile : Tile} {e : Event}
    (h : e ∈ commitCalls c k tile) :
    (∃ n, e = .resize n) ∨ e = .addTile k tile.m_renderTarget ∨ (∃ t, e = .free t)
      ∨ e = .touchTile k := by
  unfold commitCalls at h
  split_ifs at h
  · simp only [List.mem_cons, List.mem_singleton, List.not_mem_nil, or_false] at h
    rcases h with h | h
    · exact Or.inr (Or.inr (Or.inl ⟨_, h⟩))
    · exact Or.inr (Or.inr (Or.inr h))
  · rcases mem_insertCalls h with h | h | h
    · exact Or.inl h
    · exact Or.inr (Or.inl h)
    · exact Or.inr (Or.inr (Or.inl h))

theorem mem_otherCalls {e : Event} (calls : List ConcurrentCall) :
    ∀ c : TileCache, e ∈ otherCalls c calls →
      (∃ n, e = .resize n) ∨ (∃ k t, e = .addTile k t) ∨ (∃ t, e = .free t)
        ∨ ∃ k, e = .touchTile k := by
  induction calls with
  | nil => intro c h; simp [otherCalls] at h
  | cons call cs ih =>
    intro c h
    cases call with
    | SetSequenceID n => exact ih c (by simpa [otherCalls] using h)
    | SetIsPaused b => exact ih c (by simpa [otherCalls] using h)
    | AddTile k tile =>
      simp only [otherCalls, List.mem_append] at h
      rcases h with h | h
      · rcases mem_commitCalls h with h | h | h | h
        · exact Or.inl h
        · exact Or.inr (Or.inl ⟨_, _, h⟩)
        · exact Or.inr (Or.inr (Or.inl h))
        · exact Or.inr (Or.inr (Or.inr ⟨_, h⟩))
      · exact ih _ h

theorem count_otherCalls_zero (c : TileCache) (calls : List ConcurrentCall) (e : Event)
    (h1 : ∀ n, e ≠ .resize n) (h2 : ∀ k t, e ≠ .addTile k t) (h3 : ∀ t, e ≠ .free t)
    (h4 : ∀ k, e ≠ .touchTile k) :
    (otherCalls c calls).count e = 0 := by
  rw [List.count_eq_zero]
  intro hmem
  rcases mem_otherCalls calls c hmem with ⟨n, h⟩ | ⟨k, t, h⟩ | ⟨t, h⟩ | ⟨k, h⟩
  · exact h1 n h
  · exact h2 k t h
  · exact h3 t h
  · exact h4 k h

theorem count_insertCalls_zero (c : TileCache) (k : RectInfo) (tile : Tile) (e : Event)
    (h1 : ∀ n, e ≠ .resize n) (h2 : ∀ k' t, e ≠ .addTile k' t) (h3 : ∀ t, e ≠ .free t) :
    (insertCalls c k tile).count e = 0 := by
  rw [List.count_eq_zero]
  intro hmem
  rcases mem_insertCalls hmem with ⟨n, h⟩ | h | ⟨t, h⟩
  · exact h1 n h
  · exact h2 _ _ h
  · exact h3 t h

theorem count_commitCalls_zero (c : TileCache) (k : RectInfo) (tile : Tile) (e : Event)
    (h1 : ∀ n, e ≠ .resize n) (h2 : ∀ k' t, e ≠ .addTile k' t) (h3 : ∀ t, e ≠ .free t)
    (h4 : ∀ k', e ≠ .touchTile k') :
    (commitCalls c k tile).count e = 0 := by
  rw [List.count_eq_zero]
  intro hmem
  rcases mem_commitCalls hmem with ⟨n, h⟩ | h | ⟨t, h⟩ | h
  · exact h1 n h
  · exact h2 _ _ h
  · exact h3 t h
  · exact h4 _ h

theorem count_free_insertCalls (c : TileCache) (k : RectInfo) (tile : Tile) (t : Texture)
    (hfresh : c.Without t) :
    (insertCalls c k tile).count (.free t) = 0 := by
  rw [List.count_eq_zero]
  intro hmem
  unfold insertCalls at hmem
  simp only [List.mem_append, List.mem_singleton, List.mem_map] at hmem
  rcases hmem with (h | h) | ⟨t', ht', h⟩
  · split_ifs at h <;> simp at h
  · simp at h
  · obtain ⟨p, hp, hpt⟩ :=
      TileCache.addTile_evicted_mem (roomFor c) k ⟨tile⟩ (roomFor_capacity_pos c) t' ht'
    rw [roomFor_entries] at hp
    injection h with h
    exact hfresh p hp (hpt.trans h)

theorem count_addTile_insertCalls (c : TileCache) (k : RectInfo) (tile : Tile) :
    (insertCalls c k tile).count (.addTile k tile.m_renderTarget) = 1 := by
  unfold insertCalls
  have h1 : ∀ l : List Texture,
      (l.map Event.free).count (.addTile k tile.m_renderTarget) = 0 := by
    intro l
    rw [List.count_eq_zero]
    simp
  rw [List.count_append, List.count_append, h1]
  split_ifs <;> simp

/-- The calls of `AddTile` for a tile whose render target no cache entry holds:
`Free` of the target once and no `addTile` when the key is cached, `addTile` once
and no `Free` of the target when it is not. -/
theorem count_commitCalls_own (c : TileCache) (k : RectInfo) (tile : Tile)
    (hfresh : c.Without tile.m_renderTarget) :
    (commitCalls c k tile).count (.free tile.m_renderTarget)
        = (if c.hasTile k then 1 else 0)
    ∧ (commitCalls c k tile).count (.addTile k tile.m_renderTarget)
        = (if c.hasTile k then 0 else 1) := by
  unfold commitCalls
  split_ifs with h
  · simp [List.count_cons]
  · exact ⟨count_free_insertCalls c k tile _ hfresh, count_addTile_insertCalls c k tile⟩

/-- The calls of `AddTile` for a tile with another render target neither free the
texture nor commit it, when no cache entry holds the texture. -/
theorem count_commitCalls_other (c : TileCache) (k : RectInfo) (tile : Tile) (t : Texture)
    (hfresh : c.Without t) (hne : tile.m_renderTarget ≠ t) (k0 : RectInfo) :
    (commitCalls c k tile).count (.free t) = 0
    ∧ (commitCalls c k tile).count (.addTile k0 t) = 0 := by
  constructor
  · unfold commitCalls
    split_ifs with h
    · rw [List.count_eq_zero]
      simpa using fun e => hne e.symm
    · exact count_free_insertCalls c k tile t hfresh
  · rw [List.count_eq_zero]
    intro hmem
    rcases mem_commitCalls hmem with ⟨n, h⟩ | h | ⟨t', h⟩ | h
    · simp at h
    · injection h with h1 h2
      exact hne h2.symm
    · simp at h
    · simp at h

theorem mem_eraseKey {k : RectInfo} {p : RectInfo × Entry} :
    ∀ {l : List (RectInfo × Entry)}, p ∈ TileCache.eraseKey k l → p ∈ l
  | [], h => by simp [TileCache.eraseKey] at h
  | (k', e') :: rest, h => by
    by_cases hk : k' = k
    · simp only [TileCache.eraseKey, hk, if_true] at h
      exact List.mem_cons_of_mem _ h
    · simp only [TileCache.eraseKey, hk, if_false, List.mem_cons] at h
      rcases h with h | h
      · exact h ▸ List.mem_cons_self _ _
      · exact List.mem_cons_of_mem _ (mem_eraseKey h)

theorem mem_of_lookup {k : RectInfo} {e : Entry} :
    ∀ {l : List (RectInfo × Entry)}, TileCache.lookup k l = some e → (k, e) ∈ l
  | [], h => by simp [TileCache.lookup] at h
  | (k', e') :: rest, h => by
    by_cases hk : k' = k
    · simp only [TileCache.lookup, hk, if_true, Option.some.injEq] at h
      subst hk; subst h
      exact List.mem_cons_self _ _
    · simp only [TileCache.lookup, hk, if_false] at h
      exact List.mem_cons_of_mem _ (mem_of_lookup h)

theorem commitCache_without (c : TileCache) (k : RectInfo) (tile : Tile) (t : Texture)
    (hfresh : c.Without t) (hne : tile.m_renderTarget ≠ t) :
    (commitCache c k tile).Without t := by
  unfold commitCache
  split_ifs with h
  · unfold TileCache.touchTile
    cases hl : TileCache.lookup k c.entries with
    | none => exact hfresh
    | some e =>
      intro p hp
      simp only [List.mem_cons] at hp
      rcases hp with hp | hp
      · subst hp
        exact hfresh _ (mem_of_lookup hl)
      · exact hfresh p (mem_eraseKey hp)
  · intro p hp
    have hp' : p ∈ (k, (⟨tile⟩ : Entry)) :: (roomFor c).entries := List.mem_of_mem_take hp
    rw [roomFor_entries] at hp'
    simp only [List.mem_cons] at hp'
    rcases hp' with hp' | hp'
    · subst hp'
      exact hne
    · exact hfresh p hp'

theorem commitCache_hasTile (c : TileCache) (k : RectInfo) (tile : Tile) :
    (commitCache c k tile).hasTile k = true := by
  unfold commitCache
  split_ifs with h
  · have := TileCache.touchTile_find c k
    simpa [TileCache.find, TileCache.hasTile] using congrArg Option.isSome this |>.trans h
  · exact TileCache.addTile_hasTile _ _ _ (roomFor_capacity_pos c)

theorem cacheAfter_without (t : Texture) :
    ∀ (calls : List ConcurrentCall) (c : TileCache), c.Without t → t ∉ otherTargets calls →
      (cacheAfter c calls).Without t
  | [], c, h, _ => by simpa [cacheAfter] using h
  | .SetSequenceID _ :: cs, c, h, hn => by
    simpa [cacheAfter] using cacheAfter_without t cs c h (by simpa [otherTargets] using hn)
  | .SetIsPaused _ :: cs, c, h, hn => by
    simpa [cacheAfter] using cacheAfter_without t cs c h (by simpa [otherTargets] using hn)
  | .AddTile k tile :: cs, c, h, hn => by
    simp only [otherTargets, List.mem_cons, not_or] at hn
    simpa [cacheAfter] using
      cacheAfter_without t cs (commitCache c k tile)
        (commitCache_without c k tile t h (fun e => hn.1 e.symm)) hn.2

theorem count_otherCalls_other (t : Texture) (k0 : RectInfo) :
    ∀ (calls : List ConcurrentCall) (c : TileCache), c.Without t → t ∉ otherTargets calls →
      (otherCalls c calls).count (.free t) = 0 ∧ (otherCalls c calls).count (.addTile k0 t) = 0
  | [], c, _, _ => by simp [otherCalls]
  | .SetSequenceID _ :: cs, c, h, hn => by
    simpa [otherCalls] using count_otherCalls_other t k0 cs c h (by simpa [otherTargets] using hn)
  | .SetIsPaused _ :: cs, c, h, hn => by
    simpa [otherCalls] using count_otherCalls_other t k0 cs c h (by simpa [otherTargets] using hn)
  | .AddTile k tile :: cs, c, h, hn => by
    simp only [otherTargets, List.mem_cons, not_or] at hn
    have hne : tile.m_renderTarget ≠ t := fun e => hn.1 e.symm
    have h1 := count_commitCalls_other c k tile t h hne k0
    have h2 := count_otherCalls_other t k0 cs (commitCache c k tile)
      (commitCache_without c k tile t h hne) hn.2
    simp only [otherCalls, List.count_append, h1.1, h1.2, h2.1, h2.2, and_self]

/-! ## Lemmas on the renderer -/

namespace TileRenderer

theorem AddTile_eq (s : TileRenderer) (k : RectInfo) (tile : Tile) :
    s.AddTile k tile =
      { s with m_tileCache := commitCache s.m_tileCache k tile
               log := s.log ++ commitCalls s.m_tileCache k tile } := by
  unfold AddTile commitCache commitCalls insertCalls roomFor
  by_cases h : s.m_tileCache.hasTile k = true
  · simp [h, emit]
  · by_cases h0 : s.m_tileCache.canFit = 0 <;> simp [h, h0]

theorem AddTile_cached (s : TileRenderer) (k : RectInfo) (tile : Tile)
    (h : s.m_tileCache.hasTile k = true) :
    s.AddTile k tile =
      { s with m_tileCache := s.m_tileCache.touchTile k
               log := s.log ++ [Event.free tile.m_renderTarget, Event.touchTile k] } := by
  rw [AddTile_eq]
  simp [commitCache, commitCalls, h]

theorem AddTile_not_cached (s : TileRenderer) (k : RectInfo) (tile : Tile)
    (h : s.m_tileCache.hasTile k = false) :
    s.AddTile k tile =
      { s with m_tileCache := ((roomFor s.m_tileCache).addTile k ⟨tile⟩).1
               log := s.log ++ insertCalls s.m_tileCache k tile } := by
  rw [AddTile_eq]
  simp [commitCache, commitCalls, h]

theorem applyCalls_eq (calls : List ConcurrentCall) :
    ∀ s : TileRenderer, s.applyCalls calls =
      { s with m_sequenceID := seqAfter s.m_sequenceID calls
               m_isPaused := pausedAfter s.m_isPaused calls
               m_tileCache := cacheAfter s.m_tileCache calls
               log := s.log ++ otherCalls s.m_tileCache calls } := by
  induction calls with
  | nil => intro s; simp [applyCalls, seqAfter, pausedAfter, cacheAfter, otherCalls]
  | cons c cs ih =>
    intro s
    have h := ih (s.applyCall c)
    simp only [applyCalls, List.foldl_cons] at h ⊢
    rw [h]
    cases c with
    | SetSequenceID n => simp [applyCall, SetSequenceID, seqAfter, pausedAfter, cacheAfter, otherCalls]
    | SetIsPaused b => simp [applyCall, SetIsPaused, seqAfter, pausedAfter, cacheAfter, otherCalls]
    | AddTile k tile =>
      simp [applyCall, AddTile_eq, seqAfter, pausedAfter, cacheAfter, otherCalls]

theorem filter_ne_insert (l : List RectInfo) (k : RectInfo) :
    (if k ∈ l then l else k :: l).filter (fun x => !decide (x = k))
      = l.filter (fun x => !decide (x = k)) := by
  split_ifs <;> simp

theorem DrawTile_rejected (upperScale : Int) (pool : RenderTargetPool) (renderFn : RenderFn)
    (s : TileRenderer) (env : Environment) (rectInfo : RectInfo) (sequenceID : Int)
    (h : s.m_isPaused = true ∨ sequenceID < s.m_sequenceID ∨ s.HasTile rectInfo = true) :
    DrawTile upperScale pool renderFn s env rectInfo sequenceID = s := by
  unfold DrawTile
  rcases h with h | h | h
  · simp [h]
  · simp [h]
  · simp [h]

theorem DrawTile_pool_cancelled (upperScale : Int) (pool : RenderTargetPool)
    (renderFn : RenderFn) (s : TileRenderer) (env : Environment) (rectInfo : RectInfo)
    (sequenceID : Int) (hp : s.m_isPaused = false) (hs : ¬ sequenceID < s.m_sequenceID)
    (hc : s.HasTile rectInfo = false) (hpool : pool.IsCancelled = true) :
    DrawTile upperScale pool renderFn s env rectInfo sequenceID
      = s.emit (.reserve pool.Reserve) := by
  unfold DrawTile
  simp [hp, hs, hc, hpool]

theorem DrawTile_admitted (upperScale : Int) (pool : RenderTargetPool) (renderFn : RenderFn)
    (s : TileRenderer) (env : Environment) (rectInfo : RectInfo) (sequenceID : Int)
    (hp : s.m_isPaused = false) (hs : ¬ sequenceID < s.m_sequenceID)
    (hc : s.HasTile rectInfo = false) (hpool : pool.IsCancelled = false) :
    DrawTile upperScale pool renderFn s env rectInfo sequenceID =
      let b := beforeCommit upperScale pool renderFn s env rectInfo
      if env.isCancelled 3 then
        (if b.m_isExiting then b else b.emit (.free pool.Reserve))
      else
        b.AddTile rectInfo
          ⟨pool.Reserve, rectInfo,
            (renderFn (min upperScale rectInfo.m_tileScale)
              (decide (rectInfo.m_tileScale ≤ upperScale))).isEmptyDrawing⟩ := by
  have hc' : s.m_tileCache.hasTile rectInfo = false := hc
  unfold DrawTile beforeCommit
  rw [if_neg (by simp [hp]), if_neg hs, if_neg (by simp [HasTile, hc'])]
  simp only [hpool, Bool.false_eq_true, if_false]
  generalize (s.m_threadData.getD env.threadNum ⟨false⟩).m_renderQueue = q
  cases h0 : env.isCancelled 0 <;> cases h1 : env.isCancelled 1 <;>
    cases h2 : env.isCancelled 2 <;> cases h3 : env.isCancelled 3 <;>
    cases q <;> cases he : s.m_isExiting <;>
    simp [applyCalls_eq, StartTile, FinishTile, ReadPixels, emit, midCalls,
      filter_ne_insert, h0, h1, h2, h3, he]

theorem newCalls_of_log {s r : TileRenderer} {es : List Event} (h : r.log = s.log ++ es) :
    newCalls s r = es := by
  simp [newCalls, h]

/-- The log, the cache and the In-Progress Set after an admitted `DrawTile`. -/
theorem DrawTile_admitted_result (upperScale : Int) (pool : RenderTargetPool)
    (renderFn : RenderFn) (s : TileRenderer) (env : Environment) (rectInfo : RectInfo)
    (sequenceID : Int) (hp : s.m_isPaused = false) (hs : ¬ sequenceID < s.m_sequenceID)
    (hc : s.HasTile rectInfo = false) (hpool : pool.IsCancelled = false) :
    (DrawTile upperScale pool renderFn s env rectInfo sequenceID).log =
      s.log ++ ([Event.reserve pool.Reserve, Event.startTile rectInfo,
          Event.setRenderTarget pool.Reserve,
          Event.render (min upperScale rectInfo.m_tileScale)
            (decide (rectInfo.m_tileScale ≤ upperScale))]
        ++ otherCalls s.m_tileCache
            (renderFn (min upperScale rectInfo.m_tileScale)
              (decide (rectInfo.m_tileScale ≤ upperScale))).calls
        ++ midCalls (s.m_threadData.getD env.threadNum ⟨false⟩).m_renderQueue env s.m_isExiting
        ++ [Event.finishTile rectInfo]
        ++ (if env.isCancelled 3 then
              (if s.m_isExiting then [] else [Event.free pool.Reserve])
            else
              commitCalls
                (cacheAfter s.m_tileCache
                  (renderFn (min upperScale rectInfo.m_tileScale)
                    (decide (rectInfo.m_tileScale ≤ upperScale))).calls)
                rectInfo
                ⟨pool.Reserve, rectInfo,
                  (renderFn (min upperScale rectInfo.m_tileScale)
                    (decide (rectInfo.m_tileScale ≤ upperScale))).isEmptyDrawing⟩))
    ∧ (DrawTile upperScale pool renderFn s env rectInfo sequenceID).m_tileCache =
        (if env.isCancelled 3 then
          cacheAfter s.m_tileCache
            (renderFn (min upperScale rectInfo.m_tileScale)
              (decide (rectInfo.m_tileScale ≤ upperScale))).calls
        else
          commitCache
            (cacheAfter s.m_tileCache
              (renderFn (min upperScale rectInfo.m_tileScale)
                (decide (rectInfo.m_tileScale ≤ upperScale))).calls)
            rectInfo
            ⟨pool.Reserve, rectInfo,
              (renderFn (min upperScale rectInfo.m_tileScale)
                (decide (rectInfo.m_tileScale ≤ upperScale))).isEmptyDrawing⟩)
    ∧ (DrawTile upperScale pool renderFn s env rectInfo sequenceID).m_tilesInProgress =
        s.m_tilesInProgress.filter (fun k => decide (k ≠ rectInfo))
    ∧ (DrawTile upperScale pool renderFn s env rectInfo sequenceID).m_sequenceID =
        seqAfter s.m_sequenceID
          (renderFn (min upperScale rectInfo.m_tileScale)
            (decide (rectInfo.m_tileScale ≤ upperScale))).calls := by
  rw [DrawTile_admitted upperScale pool renderFn s env rectInfo sequenceID hp hs hc hpool]
  cases h3 : env.isCancelled 3
  · simp only [Bool.false_eq_true, if_false, AddTile_eq]
    simp [beforeCommit]
  · cases he : s.m_isExiting
    · have hb : (beforeCommit upperScale pool renderFn s env rectInfo).m_isExiting = false := he
      simp only [hb, if_true, if_false, Bool.false_eq_true]
      simp [emit, beforeCommit, he]
    · have hb : (beforeCommit upperScale pool renderFn s env rectInfo).m_isExiting = true := he
      simp only [hb, if_true, if_false]
      simp [beforeCommit, he]

theorem DrawTile_admitted_log (upperScale : Int) (pool : RenderTargetPool)
    (renderFn : RenderFn) (s : TileRenderer) (env : Environment) (rectInfo : RectInfo)
    (sequenceID : Int) (hp : s.m_isPaused = false) (hs : ¬ sequenceID < s.m_sequenceID)
    (hc : s.HasTile rectInfo = false) (hpool : pool.IsCancelled = false) :
    newCalls s (DrawTile upperScale pool renderFn s env rectInfo sequenceID) =
      [Event.reserve pool.Reserve, Event.startTile rectInfo,
          Event.setRenderTarget pool.Reserve,
          Event.render (min upperScale rectInfo.m_tileScale)
            (decide (rectInfo.m_tileScale ≤ upperScale))]
        ++ otherCalls s.m_tileCache
            (renderFn (min upperScale rectInfo.m_tileScale)
              (decide (rectInfo.m_tileScale ≤ upperScale))).calls
        ++ midCalls (s.m_threadData.getD env.threadNum ⟨false⟩).m_renderQueue env s.m_isExiting
        ++ [Event.finishTile rectInfo]
        ++ (if env.isCancelled 3 then
              (if s.m_isExiting then [] else [Event.free pool.Reserve])
            else
              commitCalls
                (cacheAfter s.m_tileCache
                  (renderFn (min upperScale rectInfo.m_tileScale)
                    (decide (rectInfo.m_tileScale ≤ upperScale))).calls)
                rectInfo
                ⟨pool.Reserve, rectInfo,
                  (renderFn (min upperScale rectInfo.m_tileScale)
                    (decide (rectInfo.m_tileScale ≤ upperScale))).isEmptyDrawing⟩) :=
  newCalls_of_log
    (DrawTile_admitted_result upperScale pool renderFn s env rectInfo sequenceID hp hs hc hpool).1

theorem count_midCalls_zero (q : Bool) (env : Environment) (x : Bool) (e : Event)
    (h1 : e ≠ .clip) (h2 : e ≠ .processFn) (h3 : e ≠ .readPixels)
    (h4 : e ≠ .unbindRenderTarget) (h5 : e ≠ .cancelCommands) (h6 : e ≠ .completeCommands) :
    (midCalls q env x).count e = 0 := by
  rw [List.count_eq_zero]
  intro hmem
  rcases mem_midCalls hmem with h | h | h | h | h | h <;> contradiction

/-- The number of times an admitted `DrawTile` makes a call that is neither a call
of the pool nor of the cache nor one of the calls between the callback and
`FinishTile`: the call is counted among the four first calls and `FinishTile`. -/
theorem count_plain_admitted (upperScale : Int) (pool : RenderTargetPool)
    (renderFn : RenderFn) (s : TileRenderer) (env : Environment) (rectInfo : RectInfo)
    (sequenceID : Int) (hp : s.m_isPaused = false) (hs : ¬ sequenceID < s.m_sequenceID)
    (hc : s.HasTile rectInfo = false) (hpool : pool.IsCancelled = false) (e : Event)
    (h1 : ∀ n, e ≠ .resize n) (h2 : ∀ k t, e ≠ .addTile k t) (h3 : ∀ t, e ≠ .free t)
    (h4 : ∀ k, e ≠ .touchTile k)
    (m1 : e ≠ .clip) (m2 : e ≠ .processFn) (m3 : e ≠ .readPixels)
    (m4 : e ≠ .unbindRenderTarget) (m5 : e ≠ .cancelCommands) (m6 : e ≠ .completeCommands) :
    (newCalls s (DrawTile upperScale pool renderFn s env rectInfo sequenceID)).count e =
      [Event.reserve pool.Reserve, Event.startTile rectInfo,
          Event.setRenderTarget pool.Reserve,
          Event.render (min upperScale rectInfo.m_tileScale)
            (decide (rectInfo.m_tileScale ≤ upperScale)),
          Event.finishTile rectInfo].count e := by
  rw [DrawTile_admitted_log upperScale pool renderFn s env rectInfo sequenceID hp hs hc hpool]
  have hlast : (if env.isCancelled 3 = true then
        (if s.m_isExiting = true then [] else [Event.free pool.Reserve])
      else commitCalls
        (cacheAfter s.m_tileCache
          (renderFn (min upperScale rectInfo.m_tileScale)
            (decide (rectInfo.m_tileScale ≤ upperScale))).calls)
        rectInfo
        ⟨pool.Reserve, rectInfo,
          (renderFn (min upperScale rectInfo.m_tileScale)
            (decide (rectInfo.m_tileScale ≤ upperScale))).isEmptyDrawing⟩).count e = 0 := by
    split_ifs
    · simp
    · rw [List.count_eq_zero]
      simpa using h3 pool.Reserve
    · exact count_commitCalls_zero _ _ _ e h1 h2 h3 h4
  simp only [List.count_append, hlast, count_midCalls_zero _ _ _ e m1 m2 m3 m4 m5 m6,
    count_otherCalls_zero _ _ e h1 h2 h3 h4, List.count_cons, List.count_nil]
  omega

theorem AddTile_bound (s : TileRenderer) (k : RectInfo) (tile : Tile)
    (h : s.m_tileCache.occupied ≤ s.m_tileCache.capacity) :
    (s.AddTile k tile).m_tileCache.occupied ≤ (s.AddTile k tile).m_tileCache.capacity := by
  cases hc : s.m_tileCache.hasTile k
  · rw [AddTile_not_cached s k tile hc]
    exact TileCache.addTile_occupied_le _ _ _
  · rw [AddTile_cached s k tile hc]
    simpa [TileCache.touchTile_occupied, TileCache.touchTile_capacity] using h

theorem AddTiles_bound (tiles : List (RectInfo × Tile)) :
    ∀ s : TileRenderer, s.m_tileCache.occupied ≤ s.m_tileCache.capacity →
      (s.AddTiles tiles).m_tileCache.occupied ≤ (s.AddTiles tiles).m_tileCache.capacity := by
  induction tiles with
  | nil => intro s h; simpa [AddTiles] using h
  | cons p rest ih =>
    intro s h
    have := ih (s.AddTile p.1 p.2) (AddTile_bound s p.1 p.2 h)
    simpa [AddTiles] using this

theorem count_start_finish_admitted (upperScale : Int) (pool : RenderTargetPool)
    (renderFn : RenderFn) (s : TileRenderer) (env : Environment) (rectInfo : RectInfo)
    (sequenceID : Int) (hp : s.m_isPaused = false) (hs : ¬ sequenceID < s.m_sequenceID)
    (hc : s.HasTile rectInfo = false) (hpool : pool.IsCancelled = false) (k : RectInfo) :
    (newCalls s (DrawTile upperScale pool renderFn s env rectInfo sequenceID)).count
        (.startTile k) = (if k = rectInfo then 1 else 0)
    ∧ (newCalls s (DrawTile upperScale pool renderFn s env rectInfo sequenceID)).count
        (.finishTile k) = (if k = rectInfo then 1 else 0) := by
  rw [count_plain_admitted upperScale pool renderFn s env rectInfo sequenceID hp hs hc hpool
      (.startTile k) (by simp) (by simp) (by simp) (by simp) (by simp) (by simp)
      (by simp) (by simp) (by simp) (by simp),
    count_plain_admitted upperScale pool renderFn s env rectInfo sequenceID hp hs hc hpool
      (.finishTile k) (by simp) (by simp) (by simp) (by simp) (by simp) (by simp)
      (by simp) (by simp) (by simp) (by simp)]
  by_cases hk : k = rectInfo
  · subst hk; simp [List.count_cons]
  · have hne : ¬ rectInfo = k := fun h => hk h.symm
    simp [List.count_cons, hk, hne]

end TileRenderer

theorem not_mem_otherCalls_addTile (t : Texture) (k0 : RectInfo) :
    ∀ (calls : List ConcurrentCall) (c : TileCache), t ∉ otherTargets calls →
      Event.addTile k0 t ∉ otherCalls c calls := by
  intro calls
  induction calls with
  | nil => intro c _; simp [otherCalls]
  | cons call cs ih =>
    intro c hn
    cases call with
    | SetSequenceID n => simpa [otherCalls] using ih c (by simpa [otherTargets] using hn)
    | SetIsPaused b => simpa [otherCalls] using ih c (by simpa [otherTargets] using hn)
    | AddTile k tile =>
      simp only [otherTargets, List.mem_cons, not_or] at hn
      simp only [otherCalls, List.mem_append, not_or]
      refine ⟨?_, ih _ hn.2⟩
      intro hmem
      rcases mem_commitCalls hmem with ⟨n, h⟩ | h | ⟨t', h⟩ | h
      · simp at h
      · injection h with h1 h2
        exact hn.1 h2
      · simp at h
      · simp at h

open TileRenderer

/-! ## The duplicate race -/

/-- The duplicate branch of `AddTile` is reached from `DrawTile`: the request for A is
admitted, another worker commits its own tile for A (texture 8) in the meantime, and
`DrawTile` ends with `Free` of its texture 7 and `touchTile` of A. -/
theorem DrawTile_duplicate_race :
    newCalls fresh (DrawTile 17 pool7 renderWhileACommitted fresh envRunning keyA 0)
        = [.reserve 7, .startTile keyA, .setRenderTarget 7, .render 3 true,
            .addTile keyA 8, .clip, .readPixels, .unbindRenderTarget,
            .finishTile keyA, .free 7, .touchTile keyA]
    ∧ (DrawTile 17 pool7 renderWhileACommitted fresh envRunning keyA 0).m_tileCache.entries
        = [(keyA, ⟨⟨8, keyA, false⟩⟩)] := by
  decide

/-! ## Resource conservation -/

/-- C1, as stated, fails: with the environment cancelled and `m_isExiting` set,
`DrawTile` reserves render target 7 and then neither returns it to the pool nor
commits it to the cache, so "exactly one of the two, exactly once" does not hold. -/
theorem DrawTile_cancelled_exiting_neither :
    Event.reserve 7 ∈ newCalls exitingFresh
        (DrawTile 17 pool7 renderQuiet exitingFresh envCancelled keyA 0)
    ∧ ¬ ((newCalls exitingFresh
            (DrawTile 17 pool7 renderQuiet exitingFresh
              envCancelled keyA 0)).count (.free 7)
          + (newCalls exitingFresh
              (DrawTile 17 pool7 renderQuiet exitingFresh
                envCancelled keyA 0)).count (.addTile keyA 7) = 1) := by
  decide

/-- C1, amended: for a request that passes admission, with a reserved render target
that no cache entry holds and no other worker commits, exactly one of the two, the
commit of the target to the cache and its return to the pool with `Free`, happens,
and exactly once, unless the pool is cancelled after `Reserve` or the last read of
`env.isCancelled()` is true while `m_isExiting` is set; then neither happens. In
detail: cancelled and not exiting gives the `Free`; not cancelled gives the commit
when the cache does not hold the key at that moment and the `Free` (in `AddTile`)
when another worker has committed the key in the meantime. -/
theorem DrawTile_conservation (upperScale : Int) (pool : RenderTargetPool)
    (renderFn : RenderFn) (s : TileRenderer) (env : Environment) (rectInfo : RectInfo)
    (sequenceID : Int) (hp : s.m_isPaused = false) (hs : ¬ sequenceID < s.m_sequenceID)
    (hc : s.HasTile rectInfo = false)
    (hfresh : ∀ p ∈ s.m_tileCache.entries, p.2.m_tile.m_renderTarget ≠ pool.Reserve)
    (hother : pool.Reserve ∉ otherTargets
      (renderFn (min upperScale rectInfo.m_tileScale)
        (decide (rectInfo.m_tileScale ≤ upperScale))).calls) :
    (pool.IsCancelled = false → ¬ (env.isCancelled 3 = true ∧ s.m_isExiting = true) →
      (newCalls s (DrawTile upperScale pool renderFn s env rectInfo sequenceID)).count
          (.free pool.Reserve)
        + (newCalls s (DrawTile upperScale pool renderFn s env rectInfo sequenceID)).count
          (.addTile rectInfo pool.Reserve) = 1)
    ∧ (pool.IsCancelled = true ∨ (env.isCancelled 3 = true ∧ s.m_isExiting = true) →
      (newCalls s (DrawTile upperScale pool renderFn s env rectInfo sequenceID)).count
          (.free pool.Reserve) = 0
      ∧ (newCalls s (DrawTile upperScale pool renderFn s env rectInfo sequenceID)).count
          (.addTile rectInfo pool.Reserve) = 0)
    ∧ (pool.IsCancelled = false → env.isCancelled 3 = true → s.m_isExiting = false →
      (newCalls s (DrawTile upperScale pool renderFn s env rectInfo sequenceID)).count
          (.free pool.Reserve) = 1
      ∧ (newCalls s (DrawTile upperScale pool renderFn s env rectInfo sequenceID)).count
          (.addTile rectInfo pool.Reserve) = 0)
    ∧ (pool.IsCancelled = false → env.isCancelled 3 = false →
      (newCalls s (DrawTile upperScale pool renderFn s env rectInfo sequenceID)).count
          (.free pool.Reserve)
        = (if (cacheAfter s.m_tileCache
              (renderFn (min upperScale rectInfo.m_tileScale)
                (decide (rectInfo.m_tileScale ≤ upperScale))).calls).hasTile rectInfo
            then 1 else 0)
      ∧ (newCalls s (DrawTile upperScale pool renderFn s env rectInfo sequenceID)).count
          (.addTile rectInfo pool.Reserve)
        = (if (cacheAfter s.m_tileCache
              (renderFn (min upperScale rectInfo.m_tileScale)
                (decide (rectInfo.m_tileScale ≤ upperScale))).calls).hasTile rectInfo
            then 0 else 1)) := by
  have hmidF := fun q x => count_midCalls_zero q env x (.free pool.Reserve)
    (by simp) (by simp) (by simp) (by simp) (by simp) (by simp)
  have hmidA := fun q x => count_midCalls_zero q env x (.addTile rectInfo pool.Reserve)
    (by simp) (by simp) (by simp) (by simp) (by simp) (by simp)
  have hoth := count_otherCalls_other pool.Reserve rectInfo _ s.m_tileCache hfresh hother
  have hown := count_commitCalls_own
    (cacheAfter s.m_tileCache
      (renderFn (min upperScale rectInfo.m_tileScale)
        (decide (rectInfo.m_tileScale ≤ upperScale))).calls)
    rectInfo
    ⟨pool.Reserve, rectInfo,
      (renderFn (min upperScale rectInfo.m_tileScale)
        (decide (rectInfo.m_tileScale ≤ upperScale))).isEmptyDrawing⟩
    (cacheAfter_without pool.Reserve _ s.m_tileCache hfresh hother)
  have hlog := DrawTile_admitted_log upperScale pool renderFn s env rectInfo sequenceID hp hs hc
  have hrun : pool.IsCancelled = false → env.isCancelled 3 = false →
      (newCalls s (DrawTile upperScale pool renderFn s env rectInfo sequenceID)).count
          (.free pool.Reserve)
        = (if (cacheAfter s.m_tileCache
              (renderFn (min upperScale rectInfo.m_tileScale)
                (decide (rectInfo.m_tileScale ≤ upperScale))).calls).hasTile rectInfo
            then 1 else 0)
      ∧ (newCalls s (DrawTile upperScale pool renderFn s env rectInfo sequenceID)).count
          (.addTile rectInfo pool.Reserve)
        = (if (cacheAfter s.m_tileCache
              (renderFn (min upperScale rectInfo.m_tileScale)
                (decide (rectInfo.m_tileScale ≤ upperScale))).calls).hasTile rectInfo
            then 0 else 1) := by
    intro hpool h3
    rw [hlog hpool]
    simp only [h3, Bool.false_eq_true, if_false, List.count_append, hmidF, hmidA, hoth.1,
      hoth.2, hown.1, hown.2]
    simp [List.count_cons]
  have hfree : pool.IsCancelled = false → env.isCancelled 3 = true → s.m_isExiting = false →
      (newCalls s (DrawTile upperScale pool renderFn s env rectInfo sequenceID)).count
          (.free pool.Reserve) = 1
      ∧ (newCalls s (DrawTile upperScale pool renderFn s env rectInfo sequenceID)).count
          (.addTile rectInfo pool.Reserve) = 0 := by
    intro hpool h3 he
    rw [hlog hpool]
    simp [h3, he, List.count_append, hmidF, hmidA, hoth.1, hoth.2, List.count_cons]
  have hnone : pool.IsCancelled = true ∨ (env.isCancelled 3 = true ∧ s.m_isExiting = true) →
      (newCalls s (DrawTile upperScale pool renderFn s env rectInfo sequenceID)).count
          (.free pool.Reserve) = 0
      ∧ (newCalls s (DrawTile upperScale pool renderFn s env rectInfo sequenceID)).count
          (.addTile rectInfo pool.Reserve) = 0 := by
    intro h
    cases hpool : pool.IsCancelled
    · rcases h with h | ⟨h3, he⟩
      · rw [hpool] at h; exact absurd h (by simp)
      · rw [hlog hpool]
        simp [h3, he, List.count_append, hmidF, hmidA, hoth.1, hoth.2, List.count_cons]
    · rw [DrawTile_pool_cancelled upperScale pool renderFn s env rectInfo sequenceID hp hs hc
        hpool]
      simp [newCalls, emit, List.count_cons]
  refine ⟨?_, hnone, hfree, hrun⟩
  intro hpool hne
  cases h3 : env.isCancelled 3
  · obtain ⟨h1, h2⟩ := hrun hpool h3
    rw [h1, h2]
    split_ifs <;> rfl
  · cases he : s.m_isExiting
    · obtain ⟨h1, h2⟩ := hfree hpool h3 he
      rw [h1, h2]
    · exact absurd ⟨h3, he⟩ hne

/-- Witness for C1: while A is rendered into texture 7 another worker commits its own
tile for A; the environment is not cancelled, `AddTile` finds A cached and returns
texture 7 to the pool: one `Free`, no commit. -/
theorem DrawTile_conservation_witness :
    (newCalls fresh (DrawTile 17 pool7 renderWhileACommitted fresh envRunning keyA 0)).count
        (.free pool7.Reserve)
      + (newCalls fresh (DrawTile 17 pool7 renderWhileACommitted fresh envRunning keyA 0)).count
        (.addTile keyA pool7.Reserve) = 1 :=
  (DrawTile_conservation 17 pool7 renderWhileACommitted fresh envRunning keyA 0 rfl (by decide)
    rfl (by decide) (by decide)).1 rfl (by decide)

/-! ## Admission -/

/-- C2: a request whose sequence id is less than `m_sequenceID`, or whose key the
cache has, leaves the renderer exactly as it was: no call is made (no reservation,
no render callback), the In-Progress Set and the cache are unchanged. -/
theorem DrawTile_stale_or_cached_noop (upperScale : Int) (pool : RenderTargetPool)
    (renderFn : RenderFn) (s : TileRenderer) (env : Environment) (rectInfo : RectInfo)
    (sequenceID : Int)
    (h : sequenceID < s.m_sequenceID ∨ s.m_tileCache.hasTile rectInfo = true) :
    DrawTile upperScale pool renderFn s env rectInfo sequenceID = s
    ∧ newCalls s (DrawTile upperScale pool renderFn s env rectInfo sequenceID) = []
    ∧ (DrawTile upperScale pool renderFn s env rectInfo sequenceID).m_tilesInProgress
        = s.m_tilesInProgress
    ∧ (DrawTile upperScale pool renderFn s env rectInfo sequenceID).m_tileCache
        = s.m_tileCache := by
  have hrej : DrawTile upperScale pool renderFn s env rectInfo sequenceID = s :=
    DrawTile_rejected upperScale pool renderFn s env rectInfo sequenceID
      (h.elim (fun h => Or.inr (Or.inl h)) (fun h => Or.inr (Or.inr h)))
  rw [hrej]
  simp [newCalls]

/-- Witness for C2: a request with sequence id 0 on a
renderer whose sequence id is 1. -/
theorem DrawTile_stale_or_cached_noop_witness :
    DrawTile 17 pool7 renderQuiet (fresh.SetSequenceID 1) envRunning keyA 0
        = fresh.SetSequenceID 1
    ∧ newCalls (fresh.SetSequenceID 1)
        (DrawTile 17 pool7 renderQuiet (fresh.SetSequenceID 1) envRunning keyA 0) = []
    ∧ (DrawTile 17 pool7 renderQuiet (fresh.SetSequenceID 1) envRunning keyA 0).m_tilesInProgress
        = (fresh.SetSequenceID 1).m_tilesInProgress
    ∧ (DrawTile 17 pool7 renderQuiet (fresh.SetSequenceID 1) envRunning keyA 0).m_tileCache
        = (fresh.SetSequenceID 1).m_tileCache :=
  DrawTile_stale_or_cached_noop 17 pool7 renderQuiet (fresh.SetSequenceID 1) envRunning keyA 0
    (Or.inl (by decide))

/-! ## Detail level -/

/-- C10: for an admitted request the render callback is called exactly once, with the
detail level `min upperScale tileScale` and the flag `tileScale ≤ upperScale`; the
level never exceeds `upperScale`, and the flag is true exactly when the level is
the tile's own scale. -/
theorem DrawTile_render_level (upperScale : Int) (pool : RenderTargetPool)
    (renderFn : RenderFn) (s : TileRenderer) (env : Environment) (rectInfo : RectInfo)
    (sequenceID : Int) (hp : s.m_isPaused = false) (hs : ¬ sequenceID < s.m_sequenceID)
    (hc : s.HasTile rectInfo = false) (hpool : pool.IsCancelled = false) :
    (∀ scale flag,
        Event.render scale flag
            ∈ newCalls s (DrawTile upperScale pool renderFn s env rectInfo sequenceID)
          ↔ scale = min upperScale rectInfo.m_tileScale
            ∧ flag = decide (rectInfo.m_tileScale ≤ upperScale))
    ∧ (newCalls s (DrawTile upperScale pool renderFn s env rectInfo sequenceID)).count
        (.render (min upperScale rectInfo.m_tileScale)
          (decide (rectInfo.m_tileScale ≤ upperScale))) = 1
    ∧ min upperScale rectInfo.m_tileScale ≤ upperScale
    ∧ (decide (rectInfo.m_tileScale ≤ upperScale) = true
        ↔ min upperScale rectInfo.m_tileScale = rectInfo.m_tileScale) := by
  have hcount : ∀ scale flag,
      (newCalls s (DrawTile upperScale pool renderFn s env rectInfo sequenceID)).count
          (.render scale flag)
        = if scale = min upperScale rectInfo.m_tileScale
            ∧ flag = decide (rectInfo.m_tileScale ≤ upperScale) then 1 else 0 := by
    intro scale flag
    rw [count_plain_admitted upperScale pool renderFn s env rectInfo sequenceID hp hs hc hpool
      (.render scale flag) (by simp) (by simp) (by simp) (by simp) (by simp) (by simp)
      (by simp) (by simp) (by simp) (by simp)]
    by_cases hsf : scale = min upperScale rectInfo.m_tileScale
        ∧ flag = decide (rectInfo.m_tileScale ≤ upperScale)
    · obtain ⟨h1, h2⟩ := hsf
      subst h1 h2
      simp [List.count_cons]
    · have hne : ¬ (Event.render (min upperScale rectInfo.m_tileScale)
          (decide (rectInfo.m_tileScale ≤ upperScale)) = Event.render scale flag) := by
        intro h
        injection h with h1 h2
        exact hsf ⟨h1.symm, h2.symm⟩
      simp [List.count_cons, hsf, hne]
  refine ⟨?_, ?_, min_le_left _ _, ?_⟩
  · intro scale flag
    rw [← List.count_pos_iff, hcount]
    split_ifs with h <;> simp [h]
  · rw [hcount]; simp
  · simp

/-- Witness for C10: a tile of scale 19 under the upper scale 17
is rendered at level 17 with the flag false. -/
theorem DrawTile_render_level_witness :
    Event.render 17 false
        ∈ newCalls fresh (DrawTile 17 pool7 renderQuiet fresh envRunning ⟨19, 0, 0⟩ 0)
    ∧ (newCalls fresh (DrawTile 17 pool7 renderQuiet fresh envRunning ⟨19, 0, 0⟩ 0)).count
        (.render (min 17 (RectInfo.mk 19 0 0).m_tileScale)
          (decide ((RectInfo.mk 19 0 0).m_tileScale ≤ 17))) = 1 :=
  ⟨((DrawTile_render_level 17 pool7 renderQuiet fresh envRunning ⟨19, 0, 0⟩ 0 rfl (by decide)
      rfl rfl).1 17 false).2 ⟨by decide, by decide⟩,
   (DrawTile_render_level 17 pool7 renderQuiet fresh envRunning ⟨19, 0, 0⟩ 0 rfl (by decide)
      rfl rfl).2.1⟩

/-! ## Staleness during rendering -/

/-- C3, as stated, fails: tile A is requested with sequence id 1, `SetSequenceID(2)`
takes effect during the render callback, the environment is not cancelled, and
`DrawTile` still inserts A into the cache (and frees nothing). -/
theorem DrawTile_stale_during_render_commits :
    (fresh.AddCommand keyA 1).m_sequenceID = 1
    ∧ (DrawTile 17 pool7 renderThenSeq2 (fresh.AddCommand keyA 1) envRunning keyA 1).m_sequenceID
        = 2
    ∧ (DrawTile 17 pool7 renderThenSeq2 (fresh.AddCommand keyA 1) envRunning keyA
        1).m_tileCache.hasTile keyA = true
    ∧ newCalls (fresh.AddCommand keyA 1)
        (DrawTile 17 pool7 renderThenSeq2 (fresh.AddCommand keyA 1) envRunning keyA 1)
        = [.reserve 7, .startTile keyA, .setRenderTarget 7, .render 3 true, .clip,
            .readPixels, .unbindRenderTarget, .finishTile keyA, .addTile keyA 7] := by
  decide

/-- C3, amended: `DrawTile` reads `m_sequenceID` at admission only. For an admitted
request, whatever calls (such as `SetSequenceID` with a larger id) take effect
before the commit step, the choice between the cancellation branch and `AddTile`
is made by the last read of `env.isCancelled()` alone. If it is true the
cancellation branch is taken: this execution leaves the cache as the other
threads left it and does not insert the tile. If it is false `AddTile` is called
and the key is in the cache afterwards; the tile of this execution is the one
inserted exactly when the cache does not hold the key at that moment. The sequence
id the other calls leave behind plays no part. -/
theorem DrawTile_commit_after_admission (upperScale : Int) (pool : RenderTargetPool)
    (renderFn : RenderFn) (s : TileRenderer) (env : Environment) (rectInfo : RectInfo)
    (sequenceID : Int) (hp : s.m_isPaused = false) (hs : ¬ sequenceID < s.m_sequenceID)
    (hc : s.HasTile rectInfo = false) (hpool : pool.IsCancelled = false)
    (hother : pool.Reserve ∉ otherTargets
      (renderFn (min upperScale rectInfo.m_tileScale)
        (decide (rectInfo.m_tileScale ≤ upperScale))).calls) :
    (env.isCancelled 3 = true →
      (DrawTile upperScale pool renderFn s env rectInfo sequenceID).m_tileCache
          = cacheAfter s.m_tileCache
              (renderFn (min upperScale rectInfo.m_tileScale)
                (decide (rectInfo.m_tileScale ≤ upperScale))).calls
      ∧ Event.addTile rectInfo pool.Reserve
          ∉ newCalls s (DrawTile upperScale pool renderFn s env rectInfo sequenceID))
    ∧ (env.isCancelled 3 = false →
      (DrawTile upperScale pool renderFn s env rectInfo sequenceID).m_tileCache.hasTile rectInfo
          = true
      ∧ (Event.addTile rectInfo pool.Reserve
            ∈ newCalls s (DrawTile upperScale pool renderFn s env rectInfo sequenceID)
          ↔ (cacheAfter s.m_tileCache
              (renderFn (min upperScale rectInfo.m_tileScale)
                (decide (rectInfo.m_tileScale ≤ upperScale))).calls).hasTile rectInfo = false))
    ∧ (DrawTile upperScale pool renderFn s env rectInfo sequenceID).m_sequenceID
        = seqAfter s.m_sequenceID
            (renderFn (min upperScale rectInfo.m_tileScale)
              (decide (rectInfo.m_tileScale ≤ upperScale))).calls := by
  have hmid := count_midCalls_zero (s.m_threadData.getD env.threadNum ⟨false⟩).m_renderQueue
    env s.m_isExiting (.addTile rectInfo pool.Reserve)
    (by simp) (by simp) (by simp) (by simp) (by simp) (by simp)
  have hoth : (otherCalls s.m_tileCache
      (renderFn (min upperScale rectInfo.m_tileScale)
        (decide (rectInfo.m_tileScale ≤ upperScale))).calls).count
        (.addTile rectInfo pool.Reserve) = 0 := by
    rw [List.count_eq_zero]
    exact not_mem_otherCalls_addTile pool.Reserve rectInfo _ s.m_tileCache hother
  obtain ⟨-, hcache, -, hseq⟩ :=
    DrawTile_admitted_result upperScale pool renderFn s env rectInfo sequenceID hp hs hc hpool
  have hlog := DrawTile_admitted_log upperScale pool renderFn s env rectInfo sequenceID hp hs hc
    hpool
  refine ⟨?_, ?_, hseq⟩
  · intro h3
    constructor
    · rw [hcache]; simp [h3]
    · rw [← List.count_eq_zero, hlog]
      simp only [List.count_append, hmid, hoth, h3, if_true]
      cases he : s.m_isExiting <;> simp [List.count_cons]
  · intro h3
    constructor
    · rw [hcache]
      simp only [h3, Bool.false_eq_true, if_false]
      exact commitCache_hasTile _ _ _
    · rw [← List.count_pos_iff, hlog]
      simp only [List.count_append, hmid, hoth, h3, Bool.false_eq_true, if_false]
      unfold commitCalls
      cases hh : (cacheAfter s.m_tileCache
          (renderFn (min upperScale rectInfo.m_tileScale)
            (decide (rectInfo.m_tileScale ≤ upperScale))).calls).hasTile rectInfo
      · simp only [Bool.false_eq_true, if_false]
        rw [count_addTile_insertCalls _ rectInfo ⟨pool.Reserve, rectInfo, _⟩]
        simp [List.count_cons]
      · simp [List.count_cons]

/-- Witness for C3: the request for A with sequence id 1 during which
`SetSequenceID(2)` takes effect; the environment is not cancelled, so A is in the
cache afterwards, inserted by this execution. -/
theorem DrawTile_commit_after_admission_witness :
    (DrawTile 17 pool7 renderThenSeq2 (fresh.AddCommand keyA 1) envRunning keyA
        1).m_tileCache.hasTile keyA = true
    ∧ (Event.addTile keyA pool7.Reserve
          ∈ newCalls (fresh.AddCommand keyA 1)
              (DrawTile 17 pool7 renderThenSeq2 (fresh.AddCommand keyA 1) envRunning keyA 1)
        ↔ (cacheAfter (fresh.AddCommand keyA 1).m_tileCache
            (renderThenSeq2 (min 17 keyA.m_tileScale)
              (decide (keyA.m_tileScale ≤ 17))).calls).hasTile keyA = false) :=
  (DrawTile_commit_after_admission 17 pool7 renderThenSeq2 (fresh.AddCommand keyA 1) envRunning
    keyA 1 rfl (by decide) rfl rfl (by decide)).2.1 rfl

/-! ## Requests for a tile in progress -/

/-- C4, as stated, fails: with A in the In-Progress Set (not paused, not stale, not
cached, pool not cancelled), `DrawTile` for A reserves render target 7 and calls
the render callback. -/
theorem DrawTile_in_progress_not_rejected :
    keyA ∈ busyA.m_tilesInProgress
    ∧ newCalls busyA (DrawTile 17 pool7 renderQuiet busyA envRunning keyA 0)
        = [.reserve 7, .startTile keyA, .setRenderTarget 7, .render 3 true, .clip,
            .readPixels, .unbindRenderTarget, .finishTile keyA, .addTile keyA 7] := by
  decide

/-- C4, amended: `DrawTile` does not consult the In-Progress Set. For a request that
is not paused, not stale, not cached and whose pool is not cancelled, `DrawTile`
reserves a render target, calls `StartTile` and calls the render callback, and the
calls it makes are the same whatever the In-Progress Set contains, the request's
own key included. -/
theorem DrawTile_ignores_in_progress (upperScale : Int) (pool : RenderTargetPool)
    (renderFn : RenderFn) (s : TileRenderer) (env : Environment) (rectInfo : RectInfo)
    (sequenceID : Int) (hp : s.m_isPaused = false) (hs : ¬ sequenceID < s.m_sequenceID)
    (hc : s.HasTile rectInfo = false) (hpool : pool.IsCancelled = false) :
    Event.reserve pool.Reserve
        ∈ newCalls s (DrawTile upperScale pool renderFn s env rectInfo sequenceID)
    ∧ Event.startTile rectInfo
        ∈ newCalls s (DrawTile upperScale pool renderFn s env rectInfo sequenceID)
    ∧ Event.render (min upperScale rectInfo.m_tileScale)
          (decide (rectInfo.m_tileScale ≤ upperScale))
        ∈ newCalls s (DrawTile upperScale pool renderFn s env rectInfo sequenceID)
    ∧ ∀ inProgress : List RectInfo,
        newCalls { s with m_tilesInProgress := inProgress }
            (DrawTile upperScale pool renderFn { s with m_tilesInProgress := inProgress } env
              rectInfo sequenceID)
          = newCalls s (DrawTile upperScale pool renderFn s env rectInfo sequenceID) := by
  rw [DrawTile_admitted_log upperScale pool renderFn s env rectInfo sequenceID hp hs hc hpool]
  refine ⟨by simp, by simp, by simp, ?_⟩
  intro inProgress
  rw [DrawTile_admitted_log upperScale pool renderFn { s with m_tilesInProgress := inProgress }
    env rectInfo sequenceID hp hs hc hpool]

/-- Witness for C4: key A, already in the In-Progress Set;
the calls are those made when the set is empty. -/
theorem DrawTile_ignores_in_progress_witness :
    Event.reserve pool7.Reserve
        ∈ newCalls busyA (DrawTile 17 pool7 renderQuiet busyA envRunning keyA 0)
    ∧ Event.startTile keyA
        ∈ newCalls busyA (DrawTile 17 pool7 renderQuiet busyA envRunning keyA 0)
    ∧ Event.render (min 17 keyA.m_tileScale) (decide (keyA.m_tileScale ≤ 17))
        ∈ newCalls busyA (DrawTile 17 pool7 renderQuiet busyA envRunning keyA 0)
    ∧ newCalls { busyA with m_tilesInProgress := [] }
          (DrawTile 17 pool7 renderQuiet { busyA with m_tilesInProgress := [] } envRunning
            keyA 0)
        = newCalls busyA (DrawTile 17 pool7 renderQuiet busyA envRunning keyA 0) :=
  have h := DrawTile_ignores_in_progress 17 pool7 renderQuiet busyA envRunning keyA 0 rfl
    (by decide) rfl rfl
  ⟨h.1, h.2.1, h.2.2.1, h.2.2.2 []⟩

/-! ## Duplicate completion -/

/-- C5: when the cache already holds an entry for the key, `AddTile` makes exactly two
calls, `Free` of the new tile's render target and `touchTile` of the key; nothing
is inserted: the entry stored for the key, the number of entries and the capacity
are what they were. -/
theorem AddTile_duplicate (s : TileRenderer) (rectInfo : RectInfo) (tile : Tile)
    (h : s.m_tileCache.hasTile rectInfo = true) :
    newCalls s (s.AddTile rectInfo tile)
        = [Event.free tile.m_renderTarget, Event.touchTile rectInfo]
    ∧ (newCalls s (s.AddTile rectInfo tile)).count (.free tile.m_renderTarget) = 1
    ∧ (s.AddTile rectInfo tile).m_tileCache = s.m_tileCache.touchTile rectInfo
    ∧ (s.AddTile rectInfo tile).m_tileCache.find rectInfo = s.m_tileCache.find rectInfo
    ∧ (s.AddTile rectInfo tile).m_tileCache.occupied = s.m_tileCache.occupied
    ∧ (s.AddTile rectInfo tile).m_tileCache.capacity = s.m_tileCache.capacity := by
  rw [AddTile_cached s rectInfo tile h]
  refine ⟨by simp [newCalls], by simp [newCalls, List.count_cons], rfl, ?_, ?_, ?_⟩
  · exact TileCache.touchTile_find _ _
  · exact TileCache.touchTile_occupied _ _
  · exact TileCache.touchTile_capacity _ _

/-- Witness for C5: a second tile for A, rendered into texture 7,
when the cache holds B and A. -/
theorem AddTile_duplicate_witness :
    newCalls cachedBA (cachedBA.AddTile keyA ⟨7, keyA, false⟩)
        = [Event.free (Tile.mk 7 keyA false).m_renderTarget, Event.touchTile keyA]
    ∧ (newCalls cachedBA (cachedBA.AddTile keyA ⟨7, keyA, false⟩)).count
        (.free (Tile.mk 7 keyA false).m_renderTarget) = 1
    ∧ (cachedBA.AddTile keyA ⟨7, keyA, false⟩).m_tileCache = cachedBA.m_tileCache.touchTile keyA
    ∧ (cachedBA.AddTile keyA ⟨7, keyA, false⟩).m_tileCache.find keyA
        = cachedBA.m_tileCache.find keyA
    ∧ (cachedBA.AddTile keyA ⟨7, keyA, false⟩).m_tileCache.occupied
        = cachedBA.m_tileCache.occupied
    ∧ (cachedBA.AddTile keyA ⟨7, keyA, false⟩).m_tileCache.capacity
        = cachedBA.m_tileCache.capacity :=
  AddTile_duplicate cachedBA keyA ⟨7, keyA, false⟩ (by decide)

/-! ## Re-request of a cached tile -/

/-- C6, as stated, fails: the cache holds B (most recently touched) and A; A is
requested again and its command is executed. No `touchTile` call is made and the
cache is not the touched one: B is still the most recently touched entry. -/
theorem rerequest_cached_no_touch :
    cachedBA.m_tileCache.hasTile keyA = true
    ∧ Event.touchTile keyA
        ∉ newCalls cachedBA
            (DrawTile 17 pool7 renderQuiet (cachedBA.AddCommand keyA 1) envRunning keyA 1)
    ∧ (DrawTile 17 pool7 renderQuiet (cachedBA.AddCommand keyA 1) envRunning keyA 1).m_tileCache
        ≠ cachedBA.m_tileCache.touchTile keyA
    ∧ (DrawTile 17 pool7 renderQuiet (cachedBA.AddCommand keyA 1) envRunning keyA 1).m_tileCache
        = cacheBA := by
  decide

/-- C6, amended: when the key is already in the cache, `AddCommand` followed by the
execution of its `DrawTile` command makes no call at all (no reservation, no render
callback, no `touchTile`) and leaves the cache as it was; what remains of the
request is the new sequence id and the queued chain. -/
theorem rerequest_cached_noop (upperScale : Int) (pool : RenderTargetPool)
    (renderFn : RenderFn) (s : TileRenderer) (env : Environment) (rectInfo : RectInfo)
    (sequenceID : Int) (h : s.m_tileCache.hasTile rectInfo = true) :
    DrawTile upperScale pool renderFn (s.AddCommand rectInfo sequenceID) env rectInfo sequenceID
        = s.AddCommand rectInfo sequenceID
    ∧ newCalls s
        (DrawTile upperScale pool renderFn (s.AddCommand rectInfo sequenceID) env rectInfo
          sequenceID) = []
    ∧ (DrawTile upperScale pool renderFn (s.AddCommand rectInfo sequenceID) env rectInfo
        sequenceID).m_tileCache = s.m_tileCache := by
  have hrej : DrawTile upperScale pool renderFn (s.AddCommand rectInfo sequenceID) env rectInfo
      sequenceID = s.AddCommand rectInfo sequenceID :=
    DrawTile_rejected upperScale pool renderFn _ env rectInfo sequenceID (Or.inr (Or.inr h))
  rw [hrej]
  simp [newCalls, AddCommand, SetSequenceID]

/-- Witness for C6: A is requested again when the cache holds B
and A. -/
theorem rerequest_cached_noop_witness :
    DrawTile 17 pool7 renderQuiet (cachedBA.AddCommand keyA 1) envRunning keyA 1
        = cachedBA.AddCommand keyA 1
    ∧ newCalls cachedBA
        (DrawTile 17 pool7 renderQuiet (cachedBA.AddCommand keyA 1) envRunning keyA 1) = []
    ∧ (DrawTile 17 pool7 renderQuiet (cachedBA.AddCommand keyA 1) envRunning keyA 1).m_tileCache
        = cachedBA.m_tileCache :=
  rerequest_cached_noop 17 pool7 renderQuiet cachedBA envRunning keyA 1 (by decide)

/-! ## In-progress bookkeeping -/

/-- C7, as stated, fails: A is in the In-Progress Set and a stale request for A is
rejected at admission; when `DrawTile` returns, the set still contains A. -/
theorem DrawTile_early_return_keeps_in_progress :
    (0 : Int) < (busyA.SetSequenceID 5).m_sequenceID
    ∧ keyA ∈ (DrawTile 17 pool7 renderQuiet (busyA.SetSequenceID 5) envRunning keyA
        0).m_tilesInProgress := by
  decide

/-- C7, amended: a request that passes the admission checks and whose pool is not
cancelled calls `StartTile` once and `FinishTile` once for its key, and when
`DrawTile` returns (cancelled branch or commit branch) the In-Progress Set does not
contain the key, the other keys being as before. A request that is rejected
(paused, stale, cached, pool cancelled) calls neither and leaves the In-Progress
Set as it was. On every path `FinishTile` is called as often as `StartTile`. -/
theorem DrawTile_in_progress_released (upperScale : Int) (pool : RenderTargetPool)
    (renderFn : RenderFn) (s : TileRenderer) (env : Environment) (rectInfo : RectInfo)
    (sequenceID : Int) :
    (s.m_isPaused = false → ¬ sequenceID < s.m_sequenceID → s.HasTile rectInfo = false →
      pool.IsCancelled = false →
        rectInfo ∉ (DrawTile upperScale pool renderFn s env rectInfo sequenceID).m_tilesInProgress
        ∧ (∀ k, k ≠ rectInfo →
            (k ∈ (DrawTile upperScale pool renderFn s env rectInfo sequenceID).m_tilesInProgress
              ↔ k ∈ s.m_tilesInProgress))
        ∧ (newCalls s (DrawTile upperScale pool renderFn s env rectInfo sequenceID)).count
            (.startTile rectInfo) = 1
        ∧ (newCalls s (DrawTile upperScale pool renderFn s env rectInfo sequenceID)).count
            (.finishTile rectInfo) = 1)
    ∧ (s.m_isPaused = true ∨ sequenceID < s.m_sequenceID ∨ s.HasTile rectInfo = true
        ∨ pool.IsCancelled = true →
        (DrawTile upperScale pool renderFn s env rectInfo sequenceID).m_tilesInProgress
          = s.m_tilesInProgress
        ∧ ∀ k,
          (newCalls s (DrawTile upperScale pool renderFn s env rectInfo sequenceID)).count
              (.startTile k) = 0
          ∧ (newCalls s (DrawTile upperScale pool renderFn s env rectInfo sequenceID)).count
              (.finishTile k) = 0)
    ∧ ∀ k,
        (newCalls s (DrawTile upperScale pool renderFn s env rectInfo sequenceID)).count
            (.finishTile k)
          = (newCalls s (DrawTile upperScale pool renderFn s env rectInfo sequenceID)).count
            (.startTile k) := by
  have hadm : s.m_isPaused = false → ¬ sequenceID < s.m_sequenceID → s.HasTile rectInfo = false →
      pool.IsCancelled = false → ∀ k,
        (newCalls s (DrawTile upperScale pool renderFn s env rectInfo sequenceID)).count
            (.startTile k) = (if k = rectInfo then 1 else 0)
        ∧ (newCalls s (DrawTile upperScale pool renderFn s env rectInfo sequenceID)).count
            (.finishTile k) = (if k = rectInfo then 1 else 0) :=
    fun hp hs hc hpool k =>
      count_start_finish_admitted upperScale pool renderFn s env rectInfo sequenceID hp hs hc
        hpool k
  have hprog := fun hp hs hc hpool =>
    (DrawTile_admitted_result upperScale pool renderFn s env rectInfo sequenceID hp hs hc
      hpool).2.2.1
  have hrej : (s.m_isPaused = true ∨ sequenceID < s.m_sequenceID ∨ s.HasTile rectInfo = true
        ∨ pool.IsCancelled = true) →
        (DrawTile upperScale pool renderFn s env rectInfo sequenceID).m_tilesInProgress
          = s.m_tilesInProgress
        ∧ ∀ k,
          (newCalls s (DrawTile upperScale pool renderFn s env rectInfo sequenceID)).count
              (.startTile k) = 0
          ∧ (newCalls s (DrawTile upperScale pool renderFn s env rectInfo sequenceID)).count
              (.finishTile k) = 0 := by
    intro h
    by_cases h' : s.m_isPaused = true ∨ sequenceID < s.m_sequenceID ∨ s.HasTile rectInfo = true
    · rw [DrawTile_rejected upperScale pool renderFn s env rectInfo sequenceID h']
      simp [newCalls]
    · have hpool : pool.IsCancelled = true := by
        rcases h with h | h | h | h
        · exact absurd (Or.inl h) h'
        · exact absurd (Or.inr (Or.inl h)) h'
        · exact absurd (Or.inr (Or.inr h)) h'
        · exact h
      have hp : s.m_isPaused = false := by
        cases hx : s.m_isPaused
        · rfl
        · exact absurd (Or.inl hx) h'
      have hs : ¬ sequenceID < s.m_sequenceID := fun hx => h' (Or.inr (Or.inl hx))
      have hc : s.HasTile rectInfo = false := by
        cases hx : s.HasTile rectInfo
        · rfl
        · exact absurd (Or.inr (Or.inr hx)) h'
      rw [DrawTile_pool_cancelled upperScale pool renderFn s env rectInfo sequenceID hp hs hc
        hpool]
      simp [newCalls, emit, List.count_cons]
  refine ⟨?_, hrej, ?_⟩
  · intro hp hs hc hpool
    refine ⟨?_, ?_, ?_, ?_⟩
    · rw [hprog hp hs hc hpool]
      simp
    · intro k hk
      rw [hprog hp hs hc hpool]
      simp [hk]
    · simpa using (hadm hp hs hc hpool rectInfo).1
    · simpa using (hadm hp hs hc hpool rectInfo).2
  · intro k
    by_cases h : s.m_isPaused = true ∨ sequenceID < s.m_sequenceID ∨ s.HasTile rectInfo = true
        ∨ pool.IsCancelled = true
    · rw [((hrej h).2 k).1, ((hrej h).2 k).2]
    · have hp : s.m_isPaused = false := by
        cases hx : s.m_isPaused
        · rfl
        · exact absurd (Or.inl hx) h
      have hs : ¬ sequenceID < s.m_sequenceID := fun hx => h (Or.inr (Or.inl hx))
      have hc : s.HasTile rectInfo = false := by
        cases hx : s.HasTile rectInfo
        · rfl
        · exact absurd (Or.inr (Or.inr (Or.inl hx))) h
      have hpool : pool.IsCancelled = false := by
        cases hx : pool.IsCancelled
        · rfl
        · exact absurd (Or.inr (Or.inr (Or.inr hx))) h
      rw [(hadm hp hs hc hpool k).1, (hadm hp hs hc hpool k).2]

/-- Witness for C7: A is in the In-Progress Set, the
request for A is admitted and cancelled during rendering; on return A is not in the
set and `StartTile` and `FinishTile` were each called once. -/
theorem DrawTile_in_progress_released_witness :
    keyA ∉ (DrawTile 17 pool7 renderQuiet busyA envCancelled keyA 0).m_tilesInProgress
    ∧ (∀ k, k ≠ keyA →
        (k ∈ (DrawTile 17 pool7 renderQuiet busyA envCancelled keyA 0).m_tilesInProgress
          ↔ k ∈ busyA.m_tilesInProgress))
    ∧ (newCalls busyA (DrawTile 17 pool7 renderQuiet busyA envCancelled keyA 0)).count
        (.startTile keyA) = 1
    ∧ (newCalls busyA (DrawTile 17 pool7 renderQuiet busyA envCancelled keyA 0)).count
        (.finishTile keyA) = 1 :=
  (DrawTile_in_progress_released 17 pool7 renderQuiet busyA envCancelled keyA 0).1 rfl
    (by decide) rfl rfl

/-! ## Cache bound -/

/-- C8: from a cache whose occupied count is at most its capacity, every sequence of
`AddTile` calls leads to a cache whose occupied count is at most its capacity; and
when `canFit()` is 0 and the key is new, `AddTile` calls `resize(cacheSize() + 1)`
and then `addTile`, the capacity grows by exactly one and the new entry is
inserted in front of the old ones, none of which is evicted. -/
theorem AddTile_cache_bound (s : TileRenderer)
    (h : s.m_tileCache.occupied ≤ s.m_tileCache.capacity) :
    (∀ tiles : List (RectInfo × Tile),
        (s.AddTiles tiles).m_tileCache.occupied ≤ (s.AddTiles tiles).m_tileCache.capacity)
    ∧ ∀ (rectInfo : RectInfo) (tile : Tile),
        s.m_tileCache.canFit = 0 → s.m_tileCache.hasTile rectInfo = false →
          newCalls s (s.AddTile rectInfo tile)
              = [Event.resize (s.m_tileCache.cacheSize + 1),
                  Event.addTile rectInfo tile.m_renderTarget]
          ∧ (s.AddTile rectInfo tile).m_tileCache.capacity = s.m_tileCache.capacity + 1
          ∧ (s.AddTile rectInfo tile).m_tileCache.entries
              = (rectInfo, ⟨tile⟩) :: s.m_tileCache.entries := by
  refine ⟨fun tiles => AddTiles_bound tiles s h, ?_⟩
  intro rectInfo tile hfit hnew
  rw [AddTile_not_cached s rectInfo tile hnew]
  have hroom := roomFor_room s.m_tileCache h
  have hadd := TileCache.addTile_of_room (roomFor s.m_tileCache) rectInfo ⟨tile⟩ hroom
  have hcap : (roomFor s.m_tileCache).capacity = s.m_tileCache.capacity + 1 := by
    simp [roomFor, hfit, TileCache.resize, TileCache.cacheSize]
  refine ⟨?_, ?_, ?_⟩
  · simp [newCalls, insertCalls, hfit, hadd]
  · simp [hadd, hcap]
  · simp [hadd, roomFor_entries]

/-- Witness for C8: a renderer whose cache has capacity 0; three
`AddTile` calls keep the bound, and the first one resizes to 1 and inserts. -/
theorem AddTile_cache_bound_witness :
    (fullEmpty.AddTiles
        [(keyA, ⟨7, keyA, false⟩), (keyB, ⟨8, keyB, false⟩), (keyA, ⟨9, keyA, false⟩)]
      ).m_tileCache.occupied
      ≤ (fullEmpty.AddTiles
        [(keyA, ⟨7, keyA, false⟩), (keyB, ⟨8, keyB, false⟩), (keyA, ⟨9, keyA, false⟩)]
      ).m_tileCache.capacity
    ∧ newCalls fullEmpty (fullEmpty.AddTile keyA ⟨7, keyA, false⟩)
        = [Event.resize (fullEmpty.m_tileCache.cacheSize + 1),
            Event.addTile keyA (Tile.mk 7 keyA false).m_renderTarget]
    ∧ (fullEmpty.AddTile keyA ⟨7, keyA, false⟩).m_tileCache.capacity
        = fullEmpty.m_tileCache.capacity + 1
    ∧ (fullEmpty.AddTile keyA ⟨7, keyA, false⟩).m_tileCache.entries
        = (keyA, ⟨⟨7, keyA, false⟩⟩) :: fullEmpty.m_tileCache.entries :=
  ⟨(AddTile_cache_bound fullEmpty (by decide)).1 _,
   (AddTile_cache_bound fullEmpty (by decide)).2 keyA ⟨7, keyA, false⟩ (by decide) (by decide)⟩

/-! ## The exiting flag -/

/-- C9, the failing input: `m_isExiting` is true, the cache already holds A, and
`AddTile` for A returns render target 7 to the pool; `AddTile` does not read
`m_isExiting`. The same happens from `DrawTile`: with `m_isExiting` set and the
environment not cancelled, another worker commits A while A is rendered into
texture 7, and the commit branch ends in `Free` of texture 7. -/
theorem AddTile_frees_while_exiting :
    exitingCachedBA.m_isExiting = true
    ∧ newCalls exitingCachedBA (exitingCachedBA.AddTile keyA ⟨7, keyA, false⟩)
        = [.free 7, .touchTile keyA]
    ∧ exitingFresh.m_isExiting = true
    ∧ newCalls exitingFresh
        (DrawTile 17 pool7 renderWhileACommitted exitingFresh envRunning keyA 0)
        = [.reserve 7, .startTile keyA, .setRenderTarget 7, .render 3 true,
            .addTile keyA 8, .clip, .readPixels, .unbindRenderTarget,
            .finishTile keyA, .free 7, .touchTile keyA] := by
  decide

/-- The destructor sets `m_isExiting` before it calls `m_queue.Cancel()`: the one call
it makes is recorded with the flag already true. -/
theorem Destroy_sets_exiting_first (s : TileRenderer) :
    s.Destroy.m_isExiting = true ∧ newCalls s s.Destroy = [.queueCancel true] := by
  simp [Destroy, emit, newCalls]

end Omim
